import Mathlib

/-!
# neurocontainers-ui: the tester session handler

A shallow embedding of `cmd/tester/main.go` (`handleWS`, `wsWriter.Write`,
`downloadFile`) and `internal/builder/builder.go` (`PythonBuilder.Run`).

Modelling conventions.

* Go byte strings (`string`, `[]byte`) are lists of characters, one per byte.
* Go's `(value, error)` results are pairs whose second component is
  `none` for a nil error and `some text` for an error with that `Error()` text.
* Everything outside the repository (the HTTP client, the file system calls,
  the external commands, the terminal) is answered by an `Env`: one field per
  call site, holding what that call returns in the session at hand.
* The code runs against a `World`: the files on disk and the trace of
  observable actions performed so far, in order.
* `WriteMessage` is taken to deliver: `handleWS` discards its result at every
  text send, and the trace records the sends the handler makes.
* External commands and the terminal end after finitely much output. The one
  way for the handler itself never to return is modelled: `Run` waiting on the
  pipe of lines 45-53 after its reader has stopped (`RunResult.blocked`,
  `Outcome.blocked`).
* The reader goroutine of lines 47-53 runs beside `Run`. The trace places the
  sends for lines ended by a newline at the point where the tool writes its
  output, and the send for a last line without a newline after `pw.Close()`
  (line 55), which is when the scanner sees the end of the stream; every one of
  them happens before `<-done` (line 56) lets the handler go on.
* The errors of the deferred `os.Remove` and `os.RemoveAll` are discarded by
  the code. `os.Remove` is modelled on the disk (it fails on a non-empty
  directory and on a missing path); failures for other reasons, such as
  missing permission, are answered by the `Env`.
-/

namespace Tester

/-- Byte strings of the Go program. -/
abbrev Bytes := List Char

/-- File system paths. -/
abbrev Path := List Char

/-- Error values, identified by their `Error()` text. -/
abbrev Err := List Char

/-! ## The file system -/

/-- What a path names on disk. -/
inductive Node where
  | file (content : Bytes)
  | dir
  deriving DecidableEq, Repr

/-- The disk: the paths that exist, each with what it names. -/
abbrev FS := List (Path × Node)

/-- The node at a path, if the path exists. -/
def FS.get (fs : FS) (p : Path) : Option Node := fs.lookup p

/-- Taking the entry of one path off the disk. -/
def FS.unlink (fs : FS) (p : Path) : FS := fs.filter (fun e => e.1 != p)

/-- Creating or truncating a path to hold a node. -/
def FS.put (fs : FS) (p : Path) (n : Node) : FS := (p, n) :: fs.unlink p

/-- Whether `q` lies strictly below directory `d`. -/
def isUnder (d q : Path) : Bool := (d ++ ['/']).isPrefixOf q

/-- Whether the disk holds a path below `d`. -/
def FS.hasChild (fs : FS) (d : Path) : Bool := fs.any (fun e => isUnder d e.1)

/-- The call `os.Remove(p)` as the disk decides it: a file is unlinked, a
directory is removed when nothing lies below it; on a directory that is not
empty and on a missing path the call fails and the disk stays as it is. -/
def FS.remove (fs : FS) (p : Path) : FS :=
  match fs.get p with
  | some (.file _) => fs.unlink p
  | some .dir => if fs.hasChild p then fs else fs.unlink p
  | none => fs

/-- Removing a path and everything below it (`os.RemoveAll`). -/
def FS.removeAll (fs : FS) (d : Path) : FS :=
  fs.filter (fun e => e.1 != d && !isUnder d e.1)

/-! ## The client channel and the trace -/

/-- The two websocket data message types used by the handler. -/
inductive MsgType where
  | text
  | binary
  deriving DecidableEq, Repr

/-- The places in `main.go` from which a message is written to the channel. -/
inductive Site where
  | specRequired        -- line 33
  | downloadFailed      -- line 39
  | logLine             -- line 50, the reader goroutine
  | builderError        -- line 58
  | imageOutput         -- lines 63-64, `wsWriter` as stdout/stderr of `docker build`
  | imageError          -- line 66
  | terminalFailed      -- line 73
  | terminalOutput      -- line 85, `io.Copy` into a `wsWriter`
  deriving DecidableEq, Repr

/-- The stages of a session. -/
inductive Stage where
  | downloading
  | buildingScript
  | buildingImage
  | attaching
  | interactive
  deriving DecidableEq, Repr

/-- The stage during which each write site runs. -/
def Site.stage : Site → Stage
  | .specRequired => .downloading
  | .downloadFailed => .downloading
  | .logLine => .buildingScript
  | .builderError => .buildingScript
  | .imageOutput => .buildingImage
  | .imageError => .buildingImage
  | .terminalFailed => .attaching
  | .terminalOutput => .interactive

/-- The write sites that report a failed stage. -/
def Site.isDiagnostic : Site → Bool
  | .specRequired => true
  | .downloadFailed => true
  | .builderError => true
  | .imageError => true
  | .terminalFailed => true
  | _ => false

/-- Observable actions of a session. -/
inductive Event where
  /-- The call `c.WriteMessage(t, payload)` issued at `site`. -/
  | send (t : MsgType) (site : Site) (payload : Bytes)
  /-- An HTTP GET issued for `url`. -/
  | httpGet (url : Bytes)
  /-- The call `os.CreateTemp` created the file `p`. -/
  | createTemp (p : Path)
  /-- The call `os.MkdirTemp` created the directory `p`. -/
  | mkdirTemp (p : Path)
  /-- The call `os.Create` created the file `p`. -/
  | create (p : Path)
  /-- The call `os.Remove(p)`. -/
  | remove (p : Path)
  /-- The call `os.RemoveAll(p)`. -/
  | removeAll (p : Path)
  /-- A command with this argument vector is handed to `cmd.Run` or `pty.Start`. -/
  | exec (argv : List Bytes)
  /-- The output of the build tool, these bytes, is copied into the writer given to `Run`. -/
  | write (data : Bytes)
  /-- The two forwarding activities of the interactive stage begin (lines 76-85). -/
  | forward
  /-- The call `c.Close()`. -/
  | close
  deriving DecidableEq, Repr

/-- The disk together with the actions performed so far. -/
structure World where
  fs : FS
  trace : List Event
  deriving DecidableEq, Repr

/-- Appending one action to the trace. -/
def World.log (w : World) (e : Event) : World := { w with trace := w.trace ++ [e] }

/-- Appending several actions to the trace. -/
def World.logs (w : World) (es : List Event) : World := { w with trace := w.trace ++ es }

/-- Replacing the disk. -/
def World.setFS (w : World) (fs : FS) : World := { w with fs := fs }

/-! ## The environment -/

/-- An HTTP response: status code and body. -/
structure Response where
  status : Nat
  body : Bytes
  deriving DecidableEq, Repr

/-- Whether a status code is a success (2xx) status. -/
def Response.isSuccess (r : Response) : Bool := decide (200 ≤ r.status) && decide (r.status < 300)

/-- What the world outside the repository answers during one session. -/
structure Env where
  /-- Whether `upgrader.Upgrade` fails (line 25). -/
  upgradeFails : Bool
  /-- The value of the `spec` query parameter (line 31); empty when it is absent. -/
  specURL : Bytes
  /-- The error of `http.NewRequestWithContext`, if any (line 99). -/
  newRequestErr : Option Err
  /-- The result of `http.DefaultClient.Do`: a transport error or a response (line 103). -/
  doResult : Except Err Response
  /-- The result of `os.CreateTemp`: an error or the name of the new file (line 109). -/
  createTemp : Except Err Path
  /-- The failure of `io.Copy(f, resp.Body)`, if any (line 114): the number of bytes written
  before it, and the error. -/
  copyFail : Option (Nat × Err)
  /-- The result of `os.MkdirTemp`: an error or the new directory (builder.go line 21). -/
  mkdirTemp : Except Err Path
  /-- The result of `http.Get(b.ScriptURL)` (builder.go line 28). -/
  scriptGet : Except Err Response
  /-- The error of `os.Create(scriptPath)`, if any (builder.go line 34). -/
  createScriptErr : Option Err
  /-- The error of `io.Copy(f, resp.Body)` for the script, if any (builder.go line 38). -/
  copyScriptErr : Option Err
  /-- Bytes the build tool writes to its combined stdout/stderr. -/
  toolOutput : Bytes
  /-- What the build tool does to the disk while it runs. The container commands
  are not given an effect on the host disk. -/
  toolEffect : FS → FS
  /-- The error `cmd.Run()` returns for the build tool, if any (builder.go line 47). -/
  toolErr : Option Err
  /-- The failure of the deferred `os.RemoveAll(tmpDir)`, if any (builder.go line 25, the
  error is discarded): what the failed call leaves of the disk. -/
  removeAllFail : Option (FS → FS)
  /-- Whether the deferred `os.Remove(specPath)` fails for a reason the disk does not show,
  such as missing permission (line 42, the error is discarded). -/
  removeSpecFails : Bool
  /-- The successive `Write` calls `docker build` output arrives in. -/
  imageOutput : List Bytes
  /-- The error of `buildCmd.Run()`, if any (line 65). -/
  imageErr : Option Err
  /-- The error of `pty.Start(cmd)`, if any (line 71). -/
  ptyErr : Option Err
  /-- The successive chunks `io.Copy` reads from the terminal until it ends (line 85). -/
  terminalOutput : List Bytes
  /-- The library function `filepath.Dir`. -/
  filepathDir : Path → Path
  /-- The library function `filepath.Join`, on two elements. -/
  filepathJoin : Path → Path → Path
  /-- The disk when the request arrives. -/
  disk : FS

/-! ## `bufio.Scanner` with `ScanLines`, as used on line 48 -/

/-- The constant `bufio.MaxScanTokenSize`, the scanner's default buffer limit. -/
def maxScanTokenSize : Nat := 64 * 1024

/-- Dropping one trailing carriage return (`bufio.dropCR`). -/
def dropCR (l : Bytes) : Bytes :=
  if l.getLast? = some '\r' then l.dropLast else l

/-- How a scan of a byte stream went. -/
structure Scan where
  /-- The tokens `Scan()` delivered, in order. -/
  tokens : List Bytes
  /-- The scanner stopped with `ErrTooLong`. -/
  tooLong : Bool
  /-- Bytes of the stream the scanner never read. -/
  unread : Bytes
  deriving DecidableEq, Repr

/-- The loop `for scanner.Scan()` of a `bufio.Scanner` with the `ScanLines` split
function and a buffer that grows up to `limit` bytes; `cur` is the part of the
current line already in the buffer. A token is the text before a newline, less
one trailing carriage return; a last line without a newline is a token when it
is not empty. When the buffer holds `limit` bytes and no newline, the buffer
cannot grow, `Scan` returns false with `ErrTooLong`, and nothing further is
read. -/
def scanLoop (limit : Nat) : Bytes → Bytes → Scan
  | [], cur =>
    if limit ≤ cur.length then { tokens := [], tooLong := true, unread := [] }
    else if cur = [] then { tokens := [], tooLong := false, unread := [] }
    else { tokens := [dropCR cur], tooLong := false, unread := [] }
  | b :: bs, cur =>
    if limit ≤ cur.length then { tokens := [], tooLong := true, unread := b :: bs }
    else if b = '\n' then
      let r := scanLoop limit bs []
      { r with tokens := dropCR cur :: r.tokens }
    else scanLoop limit bs (cur ++ [b])

/-- The tokens `for scanner.Scan()` sees on a stream, with the default limit. -/
def scanLines (data : Bytes) : Scan := scanLoop maxScanTokenSize data []

/-- The tokens the same loop has delivered while the stream is still open: the
lines ended by a newline, up to the point where the scanner gives up. A last
line without a newline is held back until the end of the stream is seen. -/
def scanOpen (limit : Nat) : Bytes → Bytes → List Bytes
  | [], _ => []
  | b :: bs, cur =>
    if limit ≤ cur.length then []
    else if b = '\n' then dropCR cur :: scanOpen limit bs []
    else scanOpen limit bs (cur ++ [b])

/-! ## `downloadFile` (main.go lines 98-119) -/

/-- The function `downloadFile`: the returned path and error, and the world
afterwards. The `os.Remove` of line 115 is applied to the file the call has just
created. -/
def downloadFile (env : Env) (url : Bytes) (w : World) : (Path × Option Err) × World :=
  match env.newRequestErr with
  | some e => (([], some e), w)
  | none =>
    let w := w.log (.httpGet url)
    match env.doResult with
    | .error e => (([], some e), w)
    | .ok resp =>
      match env.createTemp with
      | .error e => (([], some e), w)
      | .ok name =>
        let w := (w.setFS (w.fs.put name (.file []))).log (.createTemp name)
        match env.copyFail with
        | some (n, e) =>
          let w := w.setFS (w.fs.put name (.file (resp.body.take n)))
          let w := (w.setFS (w.fs.remove name)).log (.remove name)
          (([], some e), w)
        | none =>
          ((name, none), w.setFS (w.fs.put name (.file resp.body)))

/-! ## `PythonBuilder.Run` (builder.go lines 20-51) -/

/-- An `io.Writer` handed to `Run`, seen from the writing side: given all the
bytes written to it, the actions its consumer performs and whether every
byte was accepted (`false`: a `Write` never returns). -/
abbrev Sink := Bytes → List Event × Bool

/-- How a call of `Run` ends. -/
inductive RunResult where
  /-- The call returned `(dir, err)`. -/
  | returned (dir : Path) (err : Option Err) (w : World)
  /-- The call never returns: `cmd.Run` waits for a `Write` that does not complete. -/
  | blocked (w : World)
  deriving DecidableEq, Repr

/-- The deferred `os.RemoveAll(tmpDir)` (builder.go line 25); its error is discarded. -/
def removeStaging (env : Env) (tmpDir : Path) (w : World) : World :=
  (w.setFS (match env.removeAllFail with
    | none => w.fs.removeAll tmpDir
    | some left => left w.fs)).log (.removeAll tmpDir)

/-- The method `PythonBuilder.Run`, for a builder with the given `ScriptURL`. -/
def Run (env : Env) (scriptURL : Bytes) (yamlPath : Path) (sink : Sink) (w : World) : RunResult :=
  match env.mkdirTemp with
  | .error e => .returned [] (some e) w
  | .ok tmpDir =>
    let w := (w.setFS (w.fs.put tmpDir .dir)).log (.mkdirTemp tmpDir)
    let scriptPath := env.filepathJoin tmpDir "builder.py".toList
    let w := w.log (.httpGet scriptURL)
    match env.scriptGet with
    | .error e => .returned [] (some e) (removeStaging env tmpDir w)
    | .ok resp =>
      match env.createScriptErr with
      | some e => .returned [] (some e) (removeStaging env tmpDir w)
      | none =>
        let w := (w.setFS (w.fs.put scriptPath (.file []))).log (.create scriptPath)
        match env.copyScriptErr with
        | some e => .returned [] (some e) (removeStaging env tmpDir w)
        | none =>
          let w := w.setFS (w.fs.put scriptPath (.file resp.body))
          let w := w.log (.exec ["python".toList, scriptPath, yamlPath])
          let w := w.setFS (env.toolEffect w.fs)
          let w := w.log (.write env.toolOutput)
          let out := sink env.toolOutput
          let w := w.logs out.1
          if out.2 then
            match env.toolErr with
            | some e => .returned [] (some e) (removeStaging env tmpDir w)
            | none => .returned (env.filepathDir yamlPath) none (removeStaging env tmpDir w)
          else .blocked w

/-! ## `handleWS` and `wsWriter.Write` (main.go lines 24-96) -/

/-- The builder's `ScriptURL` (line 44). -/
def scriptURL : Bytes :=
  "https://raw.githubusercontent.com/NeuroDesk/neurocontainers/main/builder/build.py".toList

/-- The message the reader goroutine sends for a scanned line (line 50). -/
def logEvent (l : Bytes) : Event := .send .text .logLine (l ++ ['\n'])

/-- The pipe of lines 45-53 as a sink, while it is open: the reader goroutine
sends each line ended by a newline, newline appended, as a text message; the
writer is stuck exactly when the scanner stopped with bytes left unread, since
nothing reads the pipe any more and it is closed only after `Run` has returned
(line 55). -/
def pipeSink : Sink := fun out =>
  ((scanOpen maxScanTokenSize out []).map logEvent, (scanLines out).unread.isEmpty)

/-- The rest of the reader's work, done once `pw.Close()` (line 55) has ended the
stream that carried `out`: the tokens of the whole scan not delivered before,
that is, a last line without a newline, if the scanner still runs. -/
def pipeClose (out : Bytes) : List Event :=
  ((scanLines out).tokens.drop (scanOpen maxScanTokenSize out []).length).map logEvent

/-- The bytes written into the writer of `Run` in a trace. -/
def written : List Event → Bytes
  | [] => []
  | .write data :: es => data ++ written es
  | _ :: es => written es

/-- The method `wsWriter.Write`: one `websocket.BinaryMessage` per call, carrying
the bytes given; `site` records the caller. -/
def wsWriterWrite (site : Site) (p : Bytes) : Event := .send .binary site p

/-- How a call of `handleWS` ends. -/
inductive Outcome where
  /-- The upgrade failed: the handler returned without a channel. -/
  | noChannel
  /-- The handler returned and the channel is closed. -/
  | closed (w : World)
  /-- The handler never returns, stuck inside `b.Run`. -/
  | blocked (w : World)
  deriving DecidableEq, Repr

/-- The deferred calls that run when the handler returns after a successful
download, last registered first: `os.Remove(specPath)`, whose error is discarded,
then `c.Close()`. -/
def finish (env : Env) (specPath : Path) (w : World) : Outcome :=
  .closed (((w.setFS (if env.removeSpecFails then w.fs else w.fs.remove specPath)).log
    (.remove specPath)).log .close)

/-- The diagnostic written when a stage fails: label, error text, newline. -/
def diagnostic (label : String) (e : Err) : Bytes := label.toList ++ e ++ "\n".toList

/-- The handler `handleWS`. -/
def handleWS (env : Env) : Outcome :=
  if env.upgradeFails then .noChannel
  else
    let w : World := { fs := env.disk, trace := [] }
    if env.specURL = [] then
      .closed ((w.log (.send .text .specRequired "spec query param required\n".toList)).log .close)
    else
      match downloadFile env env.specURL w with
      | ((_, some e), w) =>
        .closed ((w.log (.send .text .downloadFailed (diagnostic "download failed: " e))).log .close)
      | ((specPath, none), w) =>
        match Run env scriptURL specPath pipeSink w with
        | .blocked w => .blocked w
        | .returned buildDir err w =>
          -- lines 55-56: `pw.Close()`, then `<-done`
          let w := w.logs (pipeClose (written w.trace))
          match err with
          | some e =>
            finish env specPath
              (w.log (.send .text .builderError (diagnostic "builder error: " e)))
          | none =>
            let w := w.log (.exec ["docker".toList, "build".toList, "-t".toList,
              "built-image".toList, buildDir])
            let w := w.logs (env.imageOutput.map (wsWriterWrite .imageOutput))
            match env.imageErr with
            | some e =>
              finish env specPath
                (w.log (.send .text .imageError (diagnostic "docker build error: " e)))
            | none =>
              let w := w.log (.exec ["docker".toList, "run".toList, "-it".toList,
                "--rm".toList, "built-image".toList, "/bin/bash".toList])
              match env.ptyErr with
              | some e =>
                finish env specPath
                  (w.log (.send .text .terminalFailed (diagnostic "terminal start failed: " e)))
              | none =>
                let w := w.log .forward
                let w := w.logs (env.terminalOutput.map (wsWriterWrite .terminalOutput))
                finish env specPath w

/-- The trace of a session, however it ended. -/
def Outcome.trace : Outcome → List Event
  | .noChannel => []
  | .closed w => w.trace
  | .blocked w => w.trace

/-! ## Reading a trace -/

/-- The channel messages of a trace, in order. -/
def sends : List Event → List (MsgType × Site × Bytes)
  | [] => []
  | .send t s p :: es => (t, s, p) :: sends es
  | _ :: es => sends es

/-- The diagnostic messages of a trace, in order. -/
def diagnostics (tr : List Event) : List (MsgType × Site × Bytes) :=
  (sends tr).filter (fun m => m.2.1.isDiagnostic)

/-- The commands launched in a trace, in order. -/
def execs : List Event → List (List Bytes)
  | [] => []
  | .exec a :: es => a :: execs es
  | _ :: es => execs es

/-- Cutting a path before its last separator; this is `filepath.Dir` on a clean
absolute path of two or more elements. Sample sessions use it. -/
def sampleDir (p : Path) : Path := ((p.reverse.dropWhile (fun c => c != '/')).drop 1).reverse

/-- A sample environment in which every stage succeeds. -/
def sampleEnv : Env where
  upgradeFails := false
  specURL := "http://h/s.yaml".toList
  newRequestErr := none
  doResult := .ok { status := 200, body := "name: x\n".toList }
  createTemp := .ok "/tmp/spec-1.yaml".toList
  copyFail := none
  mkdirTemp := .ok "/tmp/builder1".toList
  scriptGet := .ok { status := 200, body := "print(1)".toList }
  createScriptErr := none
  copyScriptErr := none
  toolOutput := "one\r\ntwo".toList
  toolEffect := fun fs => fs.put "/tmp/Dockerfile".toList (.file "FROM x".toList)
  toolErr := none
  removeAllFail := none
  removeSpecFails := false
  imageOutput := ["Step 1/1".toList]
  imageErr := none
  ptyErr := none
  terminalOutput := ["$ ".toList]
  filepathDir := sampleDir
  filepathJoin := fun d n => d ++ ['/'] ++ n
  disk := []

/-- The text messages the reader goroutine sends for a list of scanned lines. -/
def logMessages (ls : List Bytes) : List (MsgType × Site × Bytes) :=
  ls.map (fun l => (MsgType.text, Site.logLine, l ++ ['\n']))

/-! ## Names for parts of traces, reference definitions and sample sessions -/

/-- The actions of `Run` up to the point where the build tool has written its output. -/
def runPrefix (env : Env) (u : Bytes) (y d : Path) : List Event :=
  [.mkdirTemp d, .httpGet u, .create (env.filepathJoin d "builder.py".toList),
    .exec ["python".toList, env.filepathJoin d "builder.py".toList, y],
    .write env.toolOutput]

/-- The world once `pw.Close()` and `<-done` (lines 55-56) have followed the return of
`Run`: the reader has sent what the end of the stream still delivers. -/
def afterClose (w : World) : World := w.logs (pipeClose (written w.trace))

/-- The launch of `docker build` on a context directory (line 62). -/
def dockerBuild (buildDir : Path) : Event :=
  .exec ["docker".toList, "build".toList, "-t".toList, "built-image".toList, buildDir]

/-- The launch of `docker run` under a pseudo-terminal (lines 70-71). -/
def dockerRun : Event :=
  .exec ["docker".toList, "run".toList, "-it".toList, "--rm".toList, "built-image".toList,
    "/bin/bash".toList]

/-- The world in which the sample session ends: the channel is closed, the spec
file and the staging directory are gone, what the build tool wrote is left. -/
def sampleFinal : World :=
  { fs := [("/tmp/Dockerfile".toList, .file "FROM x".toList)]
    trace :=
      [.httpGet "http://h/s.yaml".toList,
       .createTemp "/tmp/spec-1.yaml".toList,
       .mkdirTemp "/tmp/builder1".toList,
       .httpGet scriptURL,
       .create "/tmp/builder1/builder.py".toList,
       .exec ["python".toList, "/tmp/builder1/builder.py".toList, "/tmp/spec-1.yaml".toList],
       .write "one\r\ntwo".toList,
       .send .text .logLine "one\n".toList,
       .removeAll "/tmp/builder1".toList,
       .send .text .logLine "two\n".toList,
       .exec ["docker".toList, "build".toList, "-t".toList, "built-image".toList,
         "/tmp".toList],
       .send .binary .imageOutput "Step 1/1".toList,
       .exec ["docker".toList, "run".toList, "-it".toList, "--rm".toList,
         "built-image".toList, "/bin/bash".toList],
       .forward,
       .send .binary .terminalOutput "$ ".toList,
       .remove "/tmp/spec-1.yaml".toList,
       .close] }

/-- A request without the `spec` parameter. -/
def envNoSpec : Env := { sampleEnv with specURL := [] }

/-- The spec server cannot be reached. -/
def envUnreachable : Env :=
  { sampleEnv with doResult := .error "dial tcp: lookup h: no such host".toList }

/-- The connection to the spec server breaks after three bytes of the body. -/
def envCopyFails : Env :=
  { sampleEnv with copyFail := some (3, "unexpected EOF".toList) }

/-- The build tool puts a directory with one file in it where the spec file was. -/
def envSpecDir : Env :=
  { sampleEnv with
    toolEffect := fun fs =>
      (fs.put "/tmp/spec-1.yaml".toList .dir).put "/tmp/spec-1.yaml/keep".toList (.file []) }

/-- The deferred removal of the spec file is refused for missing permission. -/
def envRemoveDenied : Env := { sampleEnv with removeSpecFails := true }

/-- The world a session starts in. -/
def Env.start (env : Env) : World := { fs := env.disk, trace := [] }

/-- An environment whose spec server answers 404 with an error page. -/
def envNotFound : Env :=
  { sampleEnv with doResult := .ok { status := 404, body := "404 page not found\n".toList } }

/-- The typing rule the handler follows: binary exactly at the two `wsWriter` sites. -/
def wellTyped (m : MsgType × Site × Bytes) : Bool :=
  decide (m.1 = MsgType.binary ↔ (m.2.1 = Site.imageOutput ∨ m.2.1 = Site.terminalOutput))

/-- The pieces of a byte stream between newlines; `cur` is the piece begun so
far. A last piece without a newline counts when it is not empty. -/
def splitAtNewlines : Bytes → Bytes → List Bytes
  | [], cur => if cur = [] then [] else [cur]
  | b :: bs, cur =>
    if b = '\n' then cur :: splitAtNewlines bs [] else splitAtNewlines bs (cur ++ [b])

/-- The lines of an output, as the spec words it: the output cut into discrete
lines, in the order produced. A line ends at a newline, a carriage return just
before it belonging to the line end. -/
def outputLines (out : Bytes) : List Bytes := (splitAtNewlines out []).map dropCR

/-- A line of exactly `bufio.MaxScanTokenSize` bytes. -/
def longLine : Bytes := List.replicate maxScanTokenSize 'a'

/-- The build tool prints one line of 65536 bytes and fails. -/
def envLongLine : Env :=
  { sampleEnv with toolOutput := longLine, toolErr := some "exit status 1".toList }

/-- The build tool prints a short line, then a last line of 65536 bytes, and succeeds. -/
def envLongSecond : Env :=
  { sampleEnv with toolOutput := "first\n".toList ++ longLine }

/-- The build tool prints a line of 65536 bytes and one more byte. -/
def envStuck : Env :=
  { sampleEnv with toolOutput := longLine ++ "x".toList }

/-- The build tool prints a line of 65536 bytes and one more byte, and fails. -/
def envStuckFail : Env :=
  { sampleEnv with toolOutput := longLine ++ "x".toList, toolErr := some "exit status 1".toList }

/-- The actions of a session up to the point where the build tool has written its output. -/
def launchPrefix (env : Env) (p d : Path) : List Event :=
  [.httpGet env.specURL, .createTemp p] ++ runPrefix env scriptURL p d

/-! ## Basic facts about worlds, disks and traces -/

@[simp]
theorem World.log_trace (w : World) (e : Event) : (w.log e).trace = w.trace ++ [e] := rfl

@[simp]
theorem World.log_fs (w : World) (e : Event) : (w.log e).fs = w.fs := rfl

@[simp]
theorem World.logs_trace (w : World) (es : List Event) :
    (w.logs es).trace = w.trace ++ es := rfl

@[simp]
theorem World.logs_fs (w : World) (es : List Event) : (w.logs es).fs = w.fs := rfl

@[simp]
theorem World.setFS_trace (w : World) (fs : FS) : (w.setFS fs).trace = w.trace := rfl

@[simp]
theorem World.setFS_fs (w : World) (fs : FS) : (w.setFS fs).fs = fs := rfl

theorem lookup_filter_none (fs : FS) (q : Path) (f : Path × Node → Bool)
    (h : fs.lookup q = none) : (fs.filter f).lookup q = none := by
  induction fs with
  | nil => rfl
  | cons e es ih =>
    obtain ⟨k, v⟩ := e
    by_cases hk : q = k
    · subst hk
      simp [List.lookup] at h
    · have hq : (q == k) = false := by simpa using hk
      simp only [List.lookup, hq] at h
      by_cases hf : f (k, v) = true
      · simp [List.filter, hf, List.lookup, hq, ih h]
      · simp [List.filter, hf, ih h]

theorem lookup_filter_self (fs : FS) (q : Path) (f : Path × Node → Bool)
    (h : ∀ n, f (q, n) = false) : (fs.filter f).lookup q = none := by
  induction fs with
  | nil => rfl
  | cons e es ih =>
    obtain ⟨k, v⟩ := e
    by_cases hk : q = k
    · subst hk
      simp [List.filter, h v, ih]
    · have hq : (q == k) = false := by simpa using hk
      by_cases hf : f (k, v) = true
      · simp [List.filter, hf, List.lookup, hq, ih]
      · simp [List.filter, hf, ih]

@[simp]
theorem FS.get_unlink_self (fs : FS) (p : Path) : (fs.unlink p).get p = none :=
  lookup_filter_self fs p _ (by simp)

@[simp]
theorem FS.get_removeAll_self (fs : FS) (d : Path) : (fs.removeAll d).get d = none :=
  lookup_filter_self fs d _ (by simp)

theorem FS.get_removeAll_under (fs : FS) (d q : Path) (h : isUnder d q = true) :
    (fs.removeAll d).get q = none :=
  lookup_filter_self fs q _ (by simp [h])

theorem FS.get_remove_of_none (fs : FS) (p q : Path) (h : fs.get q = none) :
    (fs.remove p).get q = none := by
  unfold FS.remove
  split
  · exact lookup_filter_none fs q _ h
  · split
    · exact h
    · exact lookup_filter_none fs q _ h
  · exact h

/-- Removing a path that names a file takes it off the disk. -/
theorem FS.get_remove_file (fs : FS) (p : Path) (c : Bytes) (h : fs.get p = some (.file c)) :
    (fs.remove p).get p = none := by
  simp [FS.remove, h]

/-- After `os.Remove(p)` the path is gone, unless it names a directory that is not empty. -/
theorem FS.get_remove_self (fs : FS) (p : Path) :
    (fs.remove p).get p = none ∨
      ((fs.remove p).get p = some .dir ∧ (fs.remove p).hasChild p = true) := by
  unfold FS.remove
  split
  · exact Or.inl (FS.get_unlink_self fs p)
  · rename_i hdir
    by_cases hc : fs.hasChild p = true
    · rw [if_pos hc]
      exact Or.inr ⟨hdir, hc⟩
    · rw [if_neg hc]
      exact Or.inl (FS.get_unlink_self fs p)
  · rename_i hnone
    exact Or.inl hnone

@[simp]
theorem FS.get_put_self (fs : FS) (p : Path) (n : Node) : (fs.put p n).get p = some n := by
  simp [FS.put, FS.get, List.lookup]

@[simp]
theorem sends_append (a b : List Event) : sends (a ++ b) = sends a ++ sends b := by
  induction a with
  | nil => rfl
  | cons e es ih => cases e <;> simp [sends, ih]

@[simp]
theorem execs_append (a b : List Event) : execs (a ++ b) = execs a ++ execs b := by
  induction a with
  | nil => rfl
  | cons e es ih => cases e <;> simp [execs, ih]

@[simp]
theorem diagnostics_append (a b : List Event) :
    diagnostics (a ++ b) = diagnostics a ++ diagnostics b := by
  simp [diagnostics]

@[simp]
theorem sends_map_wsWriterWrite (site : Site) (cs : List Bytes) :
    sends (cs.map (wsWriterWrite site)) = cs.map (fun c => (MsgType.binary, site, c)) := by
  induction cs with
  | nil => rfl
  | cons c cs ih => simp [sends, wsWriterWrite, ih]

@[simp]
theorem execs_map_wsWriterWrite (site : Site) (cs : List Bytes) :
    execs (cs.map (wsWriterWrite site)) = [] := by
  induction cs with
  | nil => rfl
  | cons c cs ih => simp [execs, wsWriterWrite, ih]

@[simp]
theorem written_append (a b : List Event) : written (a ++ b) = written a ++ written b := by
  induction a with
  | nil => rfl
  | cons e es ih => cases e <;> simp [written, ih]

@[simp]
theorem sends_map_logEvent (ls : List Bytes) : sends (ls.map logEvent) = logMessages ls := by
  induction ls with
  | nil => rfl
  | cons c cs ih => simp [sends, logEvent, logMessages] at ih ⊢; exact ih

@[simp]
theorem execs_map_logEvent (ls : List Bytes) : execs (ls.map logEvent) = [] := by
  induction ls with
  | nil => rfl
  | cons c cs ih => simp [execs, logEvent] at ih ⊢; exact ih

@[simp]
theorem written_map_logEvent (ls : List Bytes) : written (ls.map logEvent) = [] := by
  induction ls with
  | nil => rfl
  | cons c cs ih => simp [written, logEvent] at ih ⊢; exact ih

@[simp]
theorem written_map_wsWriterWrite (site : Site) (cs : List Bytes) :
    written (cs.map (wsWriterWrite site)) = [] := by
  induction cs with
  | nil => rfl
  | cons c cs ih => simp [written, wsWriterWrite] at ih ⊢; exact ih

@[simp]
theorem logMessages_append (a b : List Bytes) :
    logMessages (a ++ b) = logMessages a ++ logMessages b := by
  simp [logMessages]

/-- The tokens delivered while the stream is open are the first tokens of the whole scan. -/
theorem scanOpen_prefix (limit : Nat) (data cur : Bytes) :
    ∃ r, (scanLoop limit data cur).tokens = scanOpen limit data cur ++ r := by
  induction data generalizing cur with
  | nil => exact ⟨(scanLoop limit [] cur).tokens, by simp [scanOpen]⟩
  | cons b bs ih =>
    by_cases hl : limit ≤ cur.length
    · exact ⟨[], by simp [scanLoop, scanOpen, hl]⟩
    · by_cases hb : b = '\n'
      · obtain ⟨r, hr⟩ := ih []
        exact ⟨r, by simp [scanLoop, scanOpen, hl, hb, hr]⟩
      · obtain ⟨r, hr⟩ := ih (cur ++ [b])
        exact ⟨r, by simp [scanLoop, scanOpen, hl, hb, hr]⟩

/-- Between them, the sends while the pipe is open and the sends after it is
closed are the scanned lines, in order. -/
theorem sends_pipe (out : Bytes) :
    sends (pipeSink out).1 ++ sends (pipeClose out) = logMessages (scanLines out).tokens := by
  obtain ⟨r, hr⟩ := scanOpen_prefix maxScanTokenSize out []
  have hr' : (scanLines out).tokens = scanOpen maxScanTokenSize out [] ++ r := hr
  simp only [pipeSink, pipeClose, sends_map_logEvent]
  rw [hr', List.drop_left, logMessages_append]

@[simp]
theorem sends_pipeSink (out : Bytes) :
    sends (pipeSink out).1 = logMessages (scanOpen maxScanTokenSize out []) := by
  simp [pipeSink]

@[simp]
theorem sends_pipeClose (out : Bytes) :
    sends (pipeClose out) =
      logMessages ((scanLines out).tokens.drop (scanOpen maxScanTokenSize out []).length) := by
  unfold pipeClose
  exact sends_map_logEvent _

@[simp]
theorem execs_pipeSink (out : Bytes) : execs (pipeSink out).1 = [] := by
  simp [pipeSink]

@[simp]
theorem execs_pipeClose (out : Bytes) : execs (pipeClose out) = [] := by
  unfold pipeClose
  exact execs_map_logEvent _

@[simp]
theorem written_pipeClose (out : Bytes) : written (pipeClose out) = [] := by
  unfold pipeClose
  exact written_map_logEvent _

theorem pipeClose_nil : pipeClose [] = [] := by
  decide

@[simp]
theorem written_pipeSink (out : Bytes) : written (pipeSink out).1 = [] := by
  simp [pipeSink]

theorem removeStaging_trace (env : Env) (d : Path) (w : World) :
    (removeStaging env d w).trace = w.trace ++ [.removeAll d] := rfl

/-- When `os.RemoveAll` does not fail the staging directory and all below it are gone. -/
theorem removeStaging_gone (env : Env) (d : Path) (w : World) (hra : env.removeAllFail = none) :
    (removeStaging env d w).fs.get d = none ∧
      ∀ q, isUnder d q = true → (removeStaging env d w).fs.get q = none := by
  simp only [removeStaging, hra, World.log_fs, World.setFS_fs]
  exact ⟨FS.get_removeAll_self _ d, fun q hq => FS.get_removeAll_under _ d q hq⟩

@[simp]
theorem isDiagnostic_specRequired : Site.specRequired.isDiagnostic = true := rfl

@[simp]
theorem isDiagnostic_downloadFailed : Site.downloadFailed.isDiagnostic = true := rfl

@[simp]
theorem isDiagnostic_builderError : Site.builderError.isDiagnostic = true := rfl

@[simp]
theorem isDiagnostic_imageError : Site.imageError.isDiagnostic = true := rfl

@[simp]
theorem isDiagnostic_terminalFailed : Site.terminalFailed.isDiagnostic = true := rfl

@[simp]
theorem isDiagnostic_logLine : Site.logLine.isDiagnostic = false := rfl

@[simp]
theorem isDiagnostic_imageOutput : Site.imageOutput.isDiagnostic = false := rfl

@[simp]
theorem isDiagnostic_terminalOutput : Site.terminalOutput.isDiagnostic = false := rfl

@[simp]
theorem diagnostics_logMessages (ls : List Bytes) :
    (logMessages ls).filter (fun m => m.2.1.isDiagnostic) = [] := by
  induction ls with
  | nil => rfl
  | cons c cs ih => simp [logMessages]

/-! ## What `downloadFile` does -/

/-- A successful `downloadFile`: the request was built, a response arrived, the
temporary file was created and the copy went through. -/
theorem downloadFile_ok (env : Env) (url : Bytes) (w w1 : World) (p : Path)
    (h : downloadFile env url w = ((p, none), w1)) :
    env.newRequestErr = none ∧ env.createTemp = .ok p ∧ env.copyFail = none ∧
    (∃ resp, env.doResult = .ok resp ∧ w1.fs.get p = some (.file resp.body)) ∧
    w1.trace = w.trace ++ [.httpGet url, .createTemp p] := by
  unfold downloadFile at h
  cases h1 : env.newRequestErr <;> simp only [h1] at h
  · cases h2 : env.doResult <;> simp only [h2] at h
    · simp at h
    · cases h3 : env.createTemp <;> simp only [h3] at h
      · simp at h
      · cases h4 : env.copyFail <;> simp only [h4] at h
        · simp only [Prod.mk.injEq, and_true] at h
          obtain ⟨hp, hw⟩ := h
          subst hw
          subst hp
          simp
        · simp at h
  · simp at h

/-- A failed `downloadFile`: the path returned is empty, and the actions taken
are a request at most, or a request, a temporary file and its removal. -/
theorem downloadFile_err (env : Env) (url : Bytes) (w w1 : World) (p : Path) (e : Err)
    (h : downloadFile env url w = ((p, some e), w1)) :
    p = [] ∧
    ((w1 = w ∧ env.newRequestErr = some e) ∨
      (w1.fs = w.fs ∧ w1.trace = w.trace ++ [.httpGet url]) ∨
      (∃ name, w1.trace = w.trace ++ [.httpGet url, .createTemp name, .remove name] ∧
        w1.fs.get name = none)) := by
  unfold downloadFile at h
  cases h1 : env.newRequestErr <;> simp only [h1] at h
  · cases h2 : env.doResult <;> simp only [h2] at h
    · simp only [Prod.mk.injEq] at h
      obtain ⟨⟨hp, -⟩, hw⟩ := h
      subst hw
      exact ⟨hp.symm, Or.inr (Or.inl ⟨rfl, rfl⟩)⟩
    · cases h3 : env.createTemp <;> simp only [h3] at h
      · simp only [Prod.mk.injEq] at h
        obtain ⟨⟨hp, -⟩, hw⟩ := h
        subst hw
        exact ⟨hp.symm, Or.inr (Or.inl ⟨rfl, rfl⟩)⟩
      · rename_i name
        cases h4 : env.copyFail <;> simp only [h4] at h
        · simp at h
        · simp only [Prod.mk.injEq] at h
          obtain ⟨⟨hp, -⟩, hw⟩ := h
          subst hw
          refine ⟨hp.symm, Or.inr (Or.inr ⟨name, by simp, ?_⟩)⟩
          simp only [World.log_fs, World.setFS_fs]
          exact FS.get_remove_file _ _ _ (FS.get_put_self _ _ _)
  · simp only [Prod.mk.injEq, Option.some.injEq] at h
    obtain ⟨⟨hp, he⟩, hw⟩ := h
    subst hw
    subst he
    exact ⟨hp.symm, Or.inl ⟨rfl, rfl⟩⟩

/-! ## What `Run` does -/

/-- A `Run` that returns: either nothing was staged, or staging stopped before
the tool was launched, or the tool ran, its whole output was taken by the sink,
and its error decides the result; the staging directory and all below it are
gone in each case in which `os.RemoveAll` did not fail. -/
theorem Run_returned (env : Env) (u : Bytes) (y : Path) (sink : Sink) (w w1 : World)
    (dir : Path) (err : Option Err) (h : Run env u y sink w = .returned dir err w1) :
    (dir = [] ∧ w1 = w ∧ (∃ e, err = some e) ∧ (∃ e, env.mkdirTemp = .error e)) ∨
    (∃ d, env.mkdirTemp = .ok d ∧
      (env.removeAllFail = none →
        w1.fs.get d = none ∧ ∀ q, isUnder d q = true → w1.fs.get q = none) ∧
      ((dir = [] ∧ (∃ e, err = some e) ∧
          ((∃ e, env.scriptGet = .error e) ∨ (∃ e, env.createScriptErr = some e) ∨
            (∃ e, env.copyScriptErr = some e)) ∧
          (w1.trace = w.trace ++ [.mkdirTemp d, .httpGet u, .removeAll d] ∨
           w1.trace = w.trace ++ [.mkdirTemp d, .httpGet u,
             .create (env.filepathJoin d "builder.py".toList), .removeAll d])) ∨
        ((sink env.toolOutput).2 = true ∧ err = env.toolErr ∧
          (err = none → dir = env.filepathDir y) ∧ ((∃ e, err = some e) → dir = []) ∧
          w1.trace = w.trace ++ runPrefix env u y d ++ (sink env.toolOutput).1 ++
            [.removeAll d]))) := by
  unfold Run at h
  cases h1 : env.mkdirTemp <;> simp only [h1] at h
  · simp only [RunResult.returned.injEq] at h
    obtain ⟨hd, he, hw⟩ := h
    exact Or.inl ⟨hd.symm, hw.symm, ⟨_, he.symm⟩, ⟨_, rfl⟩⟩
  · rename_i d
    refine Or.inr ⟨d, rfl, ?_⟩
    cases h2 : env.scriptGet <;> simp only [h2] at h
    · simp only [RunResult.returned.injEq] at h
      obtain ⟨hd, he, hw⟩ := h
      subst hw
      exact ⟨fun hra => removeStaging_gone env d _ hra, Or.inl ⟨hd.symm, ⟨_, he.symm⟩, Or.inl ⟨_, rfl⟩,
        Or.inl (by simp [removeStaging_trace])⟩⟩
    · cases h3 : env.createScriptErr <;> simp only [h3] at h
      · cases h4 : env.copyScriptErr <;> simp only [h4] at h
        · split at h
          · rename_i hs
            cases h5 : env.toolErr <;> simp only [h5] at h
            · simp only [RunResult.returned.injEq] at h
              obtain ⟨hd, he, hw⟩ := h
              subst hw
              subst he
              exact ⟨fun hra => removeStaging_gone env d _ hra, Or.inr ⟨hs, rfl, fun _ => hd.symm, by simp,
                by simp [removeStaging_trace, runPrefix]⟩⟩
            · simp only [RunResult.returned.injEq] at h
              obtain ⟨hd, he, hw⟩ := h
              subst hw
              subst he
              exact ⟨fun hra => removeStaging_gone env d _ hra, Or.inr ⟨hs, rfl, by simp, fun _ => hd.symm,
                by simp [removeStaging_trace, runPrefix]⟩⟩
          · simp at h
        · simp only [RunResult.returned.injEq] at h
          obtain ⟨hd, he, hw⟩ := h
          subst hw
          exact ⟨fun hra => removeStaging_gone env d _ hra, Or.inl ⟨hd.symm, ⟨_, he.symm⟩,
            Or.inr (Or.inr ⟨_, rfl⟩), Or.inr (by simp [removeStaging_trace])⟩⟩
      · simp only [RunResult.returned.injEq] at h
        obtain ⟨hd, he, hw⟩ := h
        subst hw
        exact ⟨fun hra => removeStaging_gone env d _ hra, Or.inl ⟨hd.symm, ⟨_, he.symm⟩,
          Or.inr (Or.inl ⟨_, rfl⟩), Or.inl (by simp [removeStaging_trace])⟩⟩

/-- A `Run` that never returns: the tool was launched and the sink stopped
taking its output. -/
theorem Run_blocked (env : Env) (u : Bytes) (y : Path) (sink : Sink) (w w1 : World)
    (h : Run env u y sink w = .blocked w1) :
    (sink env.toolOutput).2 = false ∧
    ∃ d, env.mkdirTemp = .ok d ∧
      w1.trace = w.trace ++ runPrefix env u y d ++ (sink env.toolOutput).1 := by
  unfold Run at h
  cases h1 : env.mkdirTemp <;> simp only [h1] at h
  · simp at h
  · rename_i d
    cases h2 : env.scriptGet <;> simp only [h2] at h
    · simp at h
    · cases h3 : env.createScriptErr <;> simp only [h3] at h
      · cases h4 : env.copyScriptErr <;> simp only [h4] at h
        · split at h
          · cases h5 : env.toolErr <;> simp only [h5] at h <;> simp at h
          · rename_i hs
            simp only [RunResult.blocked.injEq] at h
            subst h
            exact ⟨by simpa using hs, d, rfl, by simp [runPrefix]⟩
        · simp at h
      · simp at h

/-! ## The paths through `handleWS` -/

/-- Every session follows one of eight paths; `afterClose w2` is the world once the
pipe has been closed behind a `Run` that returned in `w2`. -/
theorem handleWS_cases (env : Env) :
    (env.upgradeFails = true ∧ handleWS env = .noChannel) ∨
    (env.upgradeFails = false ∧ env.specURL = [] ∧
      handleWS env = .closed ((env.start.log
        (.send .text .specRequired "spec query param required\n".toList)).log .close)) ∨
    (env.upgradeFails = false ∧ env.specURL ≠ [] ∧
      ((∃ p e w1, downloadFile env env.specURL env.start = ((p, some e), w1) ∧
          handleWS env = .closed ((w1.log
            (.send .text .downloadFailed (diagnostic "download failed: " e))).log .close)) ∨
       (∃ p w1, downloadFile env env.specURL env.start = ((p, none), w1) ∧
          ((∃ w2, Run env scriptURL p pipeSink w1 = .blocked w2 ∧ handleWS env = .blocked w2) ∨
           (∃ d e w2, Run env scriptURL p pipeSink w1 = .returned d (some e) w2 ∧
              handleWS env = finish env p ((afterClose w2).log
                (.send .text .builderError (diagnostic "builder error: " e)))) ∨
           (∃ d w2, Run env scriptURL p pipeSink w1 = .returned d none w2 ∧
              ((∃ e, env.imageErr = some e ∧
                  handleWS env = finish env p ((((afterClose w2).log (dockerBuild d)).logs
                    (env.imageOutput.map (wsWriterWrite .imageOutput))).log
                    (.send .text .imageError (diagnostic "docker build error: " e)))) ∨
               (∃ e, env.imageErr = none ∧ env.ptyErr = some e ∧
                  handleWS env = finish env p (((((afterClose w2).log (dockerBuild d)).logs
                    (env.imageOutput.map (wsWriterWrite .imageOutput))).log dockerRun).log
                    (.send .text .terminalFailed (diagnostic "terminal start failed: " e)))) ∨
               (env.imageErr = none ∧ env.ptyErr = none ∧
                  handleWS env = finish env p (((((((afterClose w2).log (dockerBuild d)).logs
                    (env.imageOutput.map (wsWriterWrite .imageOutput))).log dockerRun).log
                    .forward).logs
                    (env.terminalOutput.map (wsWriterWrite .terminalOutput))))))))))) := by
  unfold handleWS
  by_cases h0 : env.upgradeFails = true
  · exact Or.inl ⟨h0, by simp [h0]⟩
  · have h0 : env.upgradeFails = false := by simpa using h0
    refine Or.inr ?_
    by_cases h1 : env.specURL = []
    · exact Or.inl ⟨h0, h1, by simp [h0, h1, Env.start]⟩
    · refine Or.inr ⟨h0, h1, ?_⟩
      simp only [h0, h1, if_false, Bool.false_eq_true]
      simp only [Env.start]
      generalize downloadFile env env.specURL _ = r
      obtain ⟨⟨p, err⟩, w1⟩ := r
      cases err with
      | some e => exact Or.inl ⟨p, e, w1, rfl, rfl⟩
      | none =>
        refine Or.inr ⟨p, w1, rfl, ?_⟩
        simp only
        generalize Run env scriptURL p pipeSink w1 = rr
        cases rr with
        | blocked w2 => exact Or.inl ⟨w2, rfl, rfl⟩
        | returned d err w2 =>
          cases err with
          | some e => exact Or.inr (Or.inl ⟨d, e, w2, rfl, rfl⟩)
          | none =>
            refine Or.inr (Or.inr ⟨d, w2, rfl, ?_⟩)
            simp only
            cases h2 : env.imageErr with
            | some e => exact Or.inl ⟨e, rfl, rfl⟩
            | none =>
              cases h3 : env.ptyErr with
              | some e => exact Or.inr (Or.inl ⟨e, rfl, rfl, rfl⟩)
              | none => exact Or.inr (Or.inr ⟨rfl, rfl, rfl⟩)

/-! ## Stage by stage: what reaches the trace -/

@[simp]
theorem forward_not_mem_pipeSink (out : Bytes) : Event.forward ∉ (pipeSink out).1 := by
  simp [pipeSink, logEvent]

@[simp]
theorem forward_not_mem_pipeClose (out : Bytes) : Event.forward ∉ pipeClose out := by
  intro h
  obtain ⟨l, -, hl⟩ := List.mem_map.mp h
  simp [logEvent] at hl

@[simp]
theorem close_not_mem_pipeClose (out : Bytes) : Event.close ∉ pipeClose out := by
  intro h
  obtain ⟨l, -, hl⟩ := List.mem_map.mp h
  simp [logEvent] at hl

@[simp]
theorem mkdirTemp_not_mem_pipeClose (out : Bytes) (d : Path) :
    Event.mkdirTemp d ∉ pipeClose out := by
  intro h
  obtain ⟨l, -, hl⟩ := List.mem_map.mp h
  simp [logEvent] at hl

@[simp]
theorem createTemp_not_mem_pipeClose (out : Bytes) (p : Path) :
    Event.createTemp p ∉ pipeClose out := by
  intro h
  obtain ⟨l, -, hl⟩ := List.mem_map.mp h
  simp [logEvent] at hl

@[simp]
theorem afterClose_fs (w : World) : (afterClose w).fs = w.fs := rfl

theorem afterClose_trace (w : World) :
    (afterClose w).trace = w.trace ++ pipeClose (written w.trace) := rfl

@[simp]
theorem close_not_mem_pipeSink (out : Bytes) : Event.close ∉ (pipeSink out).1 := by
  simp [pipeSink, logEvent]

@[simp]
theorem mkdirTemp_not_mem_pipeSink (out : Bytes) (d : Path) :
    Event.mkdirTemp d ∉ (pipeSink out).1 := by
  simp [pipeSink, logEvent]

@[simp]
theorem forward_not_mem_wsWriter (site : Site) (cs : List Bytes) :
    Event.forward ∉ cs.map (wsWriterWrite site) := by
  simp [wsWriterWrite]

@[simp]
theorem close_not_mem_wsWriter (site : Site) (cs : List Bytes) :
    Event.close ∉ cs.map (wsWriterWrite site) := by
  simp [wsWriterWrite]

@[simp]
theorem diagnostics_binary_image (cs : List Bytes) :
    (cs.map (fun c => (MsgType.binary, Site.imageOutput, c))).filter
      (fun m => m.2.1.isDiagnostic) = [] := by
  induction cs with
  | nil => rfl
  | cons c cs ih => simp

@[simp]
theorem diagnostics_binary_terminal (cs : List Bytes) :
    (cs.map (fun c => (MsgType.binary, Site.terminalOutput, c))).filter
      (fun m => m.2.1.isDiagnostic) = [] := by
  induction cs with
  | nil => rfl
  | cons c cs ih => simp

/-- The download stage sends nothing, launches nothing and stages nothing. -/
theorem downloadFile_quiet (env : Env) (r : Path × Option Err) (w1 : World)
    (h : downloadFile env env.specURL env.start = (r, w1)) :
    sends w1.trace = [] ∧ execs w1.trace = [] ∧ Event.forward ∉ w1.trace ∧
    Event.close ∉ w1.trace ∧ ∀ d, Event.mkdirTemp d ∉ w1.trace := by
  obtain ⟨p, err⟩ := r
  cases err with
  | none =>
    obtain ⟨-, -, -, -, ht⟩ := downloadFile_ok env _ _ _ _ h
    simp [ht, Env.start, sends, execs]
  | some e =>
    obtain ⟨-, ⟨hw, -⟩ | ⟨-, ht⟩ | ⟨name, ht, -⟩⟩ := downloadFile_err env _ _ _ _ _ h
    · subst hw
      simp [Env.start, sends, execs]
    · simp [ht, Env.start, sends, execs]
    · simp [ht, Env.start, sends, execs]

/-- The download stage writes nothing into the pipe. -/
theorem downloadFile_written (env : Env) (r : Path × Option Err) (w1 : World)
    (h : downloadFile env env.specURL env.start = (r, w1)) : written w1.trace = [] := by
  obtain ⟨p, err⟩ := r
  cases err with
  | none =>
    obtain ⟨-, -, -, -, ht⟩ := downloadFile_ok env _ _ _ _ h
    simp [ht, Env.start, written]
  | some e =>
    obtain ⟨-, ⟨hw, -⟩ | ⟨-, ht⟩ | ⟨name, ht, -⟩⟩ := downloadFile_err env _ _ _ _ _ h
    · subst hw
      simp [Env.start, written]
    · simp [ht, Env.start, written]
    · simp [ht, Env.start, written]

/-- The script-build stage, when `Run` returns and the pipe has been closed: the
only messages it adds are the log lines, and the only command it launches is the
build tool. -/
theorem Run_pipe_returned (env : Env) (y : Path) (w w1 : World) (dir : Path) (err : Option Err)
    (hw0 : written w.trace = [])
    (h : Run env scriptURL y pipeSink w = .returned dir err w1) :
    ∃ es, (afterClose w1).trace = w.trace ++ es ∧
      (sends es = [] ∨ sends es = logMessages (scanLines env.toolOutput).tokens) ∧
      (execs es = [] ∨ ∃ sp, execs es = [["python".toList, sp, y]]) ∧
      Event.forward ∉ es ∧ Event.close ∉ es ∧
      (env.removeAllFail = none → ∀ d, Event.mkdirTemp d ∈ es →
        (afterClose w1).fs.get d = none ∧
          ∀ q, isUnder d q = true → (afterClose w1).fs.get q = none) ∧
      (∀ d, Event.mkdirTemp d ∈ es → Event.removeAll d ∈ es) := by
  rcases Run_returned env _ _ _ _ _ _ _ h with ⟨-, hw, -, -⟩ |
    ⟨d, -, hg, ⟨-, -, -, ht | ht⟩ | ⟨-, -, -, -, ht⟩⟩
  · subst hw
    exact ⟨[], by simp [afterClose_trace, hw0, pipeClose_nil], by simp [sends, execs]⟩
  · refine ⟨[.mkdirTemp d, .httpGet scriptURL, .removeAll d], ?_, ?_⟩
    · simp [afterClose_trace, ht, hw0, written, pipeClose_nil]
    · refine ⟨by simp [sends], by simp [execs], by simp, by simp, ?_, by simp⟩
      intro hra d' hd'
      have : d' = d := by simpa using hd'
      subst this
      exact hg hra
  · refine ⟨[.mkdirTemp d, .httpGet scriptURL,
      .create (env.filepathJoin d "builder.py".toList), .removeAll d], ?_, ?_⟩
    · simp [afterClose_trace, ht, hw0, written, pipeClose_nil]
    · refine ⟨by simp [sends], by simp [execs], by simp, by simp, ?_, by simp⟩
      intro hra d' hd'
      have : d' = d := by simpa using hd'
      subst this
      exact hg hra
  · have hwr : written w1.trace = env.toolOutput := by
      simp [ht, hw0, runPrefix, written]
    refine ⟨runPrefix env scriptURL y d ++ (pipeSink env.toolOutput).1 ++ [.removeAll d] ++
      pipeClose env.toolOutput, ?_, ?_⟩
    · rw [afterClose_trace, hwr, ht]
      simp
    · refine ⟨Or.inr ?_, Or.inr ⟨env.filepathJoin d "builder.py".toList, ?_⟩, ?_, ?_, ?_, ?_⟩
      · have hsp := sends_pipe env.toolOutput
        simp only [sends_append, sends_pipeSink, sends_pipeClose] at hsp ⊢
        simpa [runPrefix, sends] using hsp
      · simp [runPrefix, execs]
      · simp [runPrefix]
      · simp [runPrefix]
      · intro hra d' hd'
        have : d' = d := by simpa [runPrefix] using hd'
        subst this
        exact hg hra
      · intro d' hd'
        have : d' = d := by simpa [runPrefix] using hd'
        subst this
        simp

/-- The script-build stage, when `Run` never returns. -/
theorem Run_pipe_blocked (env : Env) (y : Path) (w w1 : World)
    (h : Run env scriptURL y pipeSink w = .blocked w1) :
    (scanLines env.toolOutput).unread ≠ [] ∧
    ∃ es, w1.trace = w.trace ++ es ∧
      sends es = logMessages (scanOpen maxScanTokenSize env.toolOutput []) ∧
      (∃ sp, execs es = [["python".toList, sp, y]]) ∧
      Event.forward ∉ es ∧ Event.close ∉ es := by
  obtain ⟨hs, d, -, ht⟩ := Run_blocked env _ _ _ _ _ h
  refine ⟨by simpa [pipeSink] using hs, _, by rw [ht, List.append_assoc], ?_⟩
  simp [runPrefix, sends, execs]

/-! ## The session as a whole -/

theorem getLast_log_close (w : World) : (w.log .close).trace.getLast? = some Event.close := by
  simp [World.log]

/-- A returning handler closes the channel as its last action. -/
theorem handleWS_closed_last (env : Env) (w : World) (h : handleWS env = .closed w) :
    w.trace.getLast? = some Event.close := by
  rcases handleWS_cases env with ⟨-, hw⟩ | ⟨-, -, hw⟩ | ⟨-, -, ⟨p, e, w1, hd, hw⟩ |
    ⟨p, w1, hd, ⟨w2, hr, hw⟩ | ⟨d, e, w2, hr, hw⟩ |
      ⟨d, w2, hr, ⟨e, hi, hw⟩ | ⟨e, hi, hp, hw⟩ | ⟨hi, hp, hw⟩⟩⟩⟩
  all_goals
    rw [hw] at h
    first
      | (cases h; done)
      | (cases h; exact getLast_log_close _)

/-- A session whose scanner reads the tool's output to the end is a session in
which the handler returns. -/
theorem handleWS_returns (env : Env) (hup : env.upgradeFails = false)
    (hread : (scanLines env.toolOutput).unread = []) : ∃ w, handleWS env = .closed w := by
  rcases handleWS_cases env with ⟨h0, -⟩ | ⟨-, -, hw⟩ | ⟨-, -, ⟨p, e, w1, hd, hw⟩ |
    ⟨p, w1, hd, ⟨w2, hr, hw⟩ | ⟨d, e, w2, hr, hw⟩ |
      ⟨d, w2, hr, ⟨e, hi, hw⟩ | ⟨e, hi, hp, hw⟩ | ⟨hi, hp, hw⟩⟩⟩⟩
  · simp [hup] at h0
  · exact ⟨_, hw⟩
  · exact ⟨_, hw⟩
  · exact absurd hread (Run_pipe_blocked env _ _ _ hr).1
  all_goals exact ⟨_, by rw [hw, finish]⟩

/-- Sessions that close: whenever the handler returns and the channel closes,
either exactly one diagnostic was sent, as a text message, and the interactive
forwarding never started, or the forwarding started and no diagnostic was sent;
never both, never neither; the close is the last action of the session. And the
handler does return in every session with an open channel whose scanner read the
output of the tool to the end, whichever stages succeed or fail. -/
theorem closed_session_diagnostic_xor_interactive (env : Env) :
    (∀ w, handleWS env = .closed w →
      (((∃ s p, diagnostics w.trace = [(MsgType.text, s, p)]) ∧ Event.forward ∉ w.trace) ∨
        (Event.forward ∈ w.trace ∧ diagnostics w.trace = [])) ∧
      ¬ ((∃ s p, diagnostics w.trace = [(MsgType.text, s, p)]) ∧ Event.forward ∈ w.trace) ∧
      w.trace.getLast? = some Event.close) ∧
    (env.upgradeFails = false → (scanLines env.toolOutput).unread = [] →
      ∃ w, handleWS env = .closed w) := by
  refine ⟨?_, handleWS_returns env⟩
  intro w h
  suffices hmain : (((∃ s p, diagnostics w.trace = [(MsgType.text, s, p)]) ∧
        Event.forward ∉ w.trace) ∨ (Event.forward ∈ w.trace ∧ diagnostics w.trace = [])) ∧
      ¬ ((∃ s p, diagnostics w.trace = [(MsgType.text, s, p)]) ∧ Event.forward ∈ w.trace) from
    ⟨hmain.1, hmain.2, handleWS_closed_last env w h⟩
  rcases handleWS_cases env with ⟨-, hw⟩ | ⟨-, -, hw⟩ | ⟨-, -, ⟨p, e, w1, hd, hw⟩ |
    ⟨p, w1, hd, ⟨w2, hr, hw⟩ | ⟨d, e, w2, hr, hw⟩ |
      ⟨d, w2, hr, ⟨e, hi, hw⟩ | ⟨e, hi, hp, hw⟩ | ⟨hi, hp, hw⟩⟩⟩⟩
  · rw [hw] at h
    cases h
  · rw [hw] at h
    cases h
    simp [Env.start, diagnostics, sends]
  · rw [hw] at h
    cases h
    obtain ⟨hs, -, hf, -, -⟩ := downloadFile_quiet env _ _ hd
    simp [diagnostics, sends, hs, hf]
  · rw [hw] at h
    cases h
  all_goals
    rw [hw] at h
    cases h
    obtain ⟨hs, -, hf, -, -⟩ := downloadFile_quiet env _ _ hd
    obtain ⟨es, ht, hes, -, hef, -, -⟩ := Run_pipe_returned env _ _ _ _ _ (downloadFile_written env _ _ hd) hr
    rcases hes with hes | hes <;>
      simp [diagnostics, sends, hs, hf, ht, hes, hef, dockerBuild, dockerRun, wsWriterWrite]

/-- The sample session, in which every stage succeeds, ends in `sampleFinal`. -/
theorem handleWS_sampleEnv : handleWS sampleEnv = .closed sampleFinal := by
  decide

/-- C2: with the channel open and the locator absent, the handler sends the text
message `spec query param required` (newline-terminated) and closes; that is the
whole session: no request, no file, no command, and the disk is as it was. -/
theorem handleWS_spec_absent (env : Env) (hup : env.upgradeFails = false)
    (hs : env.specURL = []) :
    handleWS env = .closed
      { fs := env.disk
        trace := [.send .text .specRequired "spec query param required\n".toList, .close] } := by
  simp [handleWS, hup, hs, World.log]

/-- C2 at a request without the parameter. -/
theorem handleWS_spec_absent_witness :
    envNoSpec.upgradeFails = false ∧ envNoSpec.specURL = [] ∧
    handleWS envNoSpec = .closed
      { fs := []
        trace := [.send .text .specRequired "spec query param required\n".toList, .close] } :=
  ⟨rfl, rfl, handleWS_spec_absent envNoSpec rfl rfl⟩

/-- C4: with a locator present and a failing download, the one message sent is the
text diagnostic `download failed: ` followed by the error text and a newline; then
the channel closes. No command is launched, `Run` stages no directory, and the
disk is left as `downloadFile` left it. -/
theorem handleWS_download_failed (env : Env) (p : Path) (e : Err) (w1 : World)
    (hup : env.upgradeFails = false) (hs : env.specURL ≠ [])
    (hd : downloadFile env env.specURL env.start = ((p, some e), w1)) :
    ∃ w, handleWS env = .closed w ∧
      sends w.trace =
        [(MsgType.text, Site.downloadFailed, "download failed: ".toList ++ e ++ "\n".toList)] ∧
      execs w.trace = [] ∧ (∀ d, Event.mkdirTemp d ∉ w.trace) ∧
      w.trace.getLast? = some Event.close ∧ w.fs = w1.fs := by
  rcases handleWS_cases env with ⟨h0, -⟩ | ⟨-, h1, -⟩ | ⟨-, -, ⟨p', e', w1', hd', hw⟩ |
    ⟨p', w1', hd', -⟩⟩
  · simp [hup] at h0
  · exact absurd h1 hs
  · rw [hd] at hd'
    cases hd'
    obtain ⟨hsd, hex, -, -, hmk⟩ := downloadFile_quiet env _ _ hd
    refine ⟨_, hw, ?_, ?_, ?_, getLast_log_close _, rfl⟩
    · simp [sends, hsd, diagnostic]
    · simp [execs, hex]
    · intro d
      simp [hmk d]
  · rw [hd] at hd'
    cases hd'

/-- C4 at an unreachable spec server. -/
theorem handleWS_download_failed_witness :
    envUnreachable.upgradeFails = false ∧ envUnreachable.specURL ≠ [] ∧
    ∃ w, handleWS envUnreachable = .closed w ∧
      sends w.trace =
        [(MsgType.text, Site.downloadFailed,
          "download failed: ".toList ++ "dial tcp: lookup h: no such host".toList ++
            "\n".toList)] ∧
      execs w.trace = [] ∧ (∀ d, Event.mkdirTemp d ∉ w.trace) ∧
      w.trace.getLast? = some Event.close ∧
      w.fs = (downloadFile envUnreachable envUnreachable.specURL envUnreachable.start).2.fs :=
  ⟨rfl, by decide,
    handleWS_download_failed envUnreachable [] "dial tcp: lookup h: no such host".toList
      (downloadFile envUnreachable envUnreachable.specURL envUnreachable.start).2
      rfl (by decide) rfl⟩

/-- C8, as stated, fails: a 404 response is stored and its path returned without error. -/
theorem downloadFile_accepts_not_found :
    Response.isSuccess { status := 404, body := "404 page not found\n".toList } = false ∧
    envNotFound.doResult = .ok { status := 404, body := "404 page not found\n".toList } ∧
    (downloadFile envNotFound envNotFound.specURL envNotFound.start).1 =
      ("/tmp/spec-1.yaml".toList, none) ∧
    (downloadFile envNotFound envNotFound.specURL envNotFound.start).2.fs.get
      "/tmp/spec-1.yaml".toList = some (.file "404 page not found\n".toList) :=
  ⟨by decide, rfl, by decide, by decide⟩

/-- C8, amended: `downloadFile` returns an error when the request cannot be built,
when the transport fails, when the temporary file cannot be created and when the
copy fails; otherwise, whatever the status of the response, it returns the path of
the temporary file, and that file holds the bytes of the response body. A path
without error is returned only in that last case. -/
theorem downloadFile_outcome (env : Env) (url : Bytes) (w : World) :
    (∀ e, env.newRequestErr = some e → (downloadFile env url w).1 = ([], some e)) ∧
    (∀ e, env.newRequestErr = none → env.doResult = .error e →
      (downloadFile env url w).1 = ([], some e)) ∧
    (∀ resp e, env.newRequestErr = none → env.doResult = .ok resp →
      env.createTemp = .error e → (downloadFile env url w).1 = ([], some e)) ∧
    (∀ resp name n e, env.newRequestErr = none → env.doResult = .ok resp →
      env.createTemp = .ok name → env.copyFail = some (n, e) →
      (downloadFile env url w).1 = ([], some e)) ∧
    (∀ resp name, env.newRequestErr = none → env.doResult = .ok resp →
      env.createTemp = .ok name → env.copyFail = none →
      (downloadFile env url w).1 = (name, none) ∧
      (downloadFile env url w).2.fs.get name = some (.file resp.body)) ∧
    (∀ p w1, downloadFile env url w = ((p, none), w1) →
      ∃ resp, env.doResult = .ok resp ∧ env.createTemp = .ok p ∧
        w1.fs.get p = some (.file resp.body)) := by
  refine ⟨?_, ?_, ?_, ?_, ?_, ?_⟩
  · intro e h1
    simp [downloadFile, h1]
  · intro e h1 h2
    simp [downloadFile, h1, h2]
  · intro resp e h1 h2 h3
    simp [downloadFile, h1, h2, h3]
  · intro resp name n e h1 h2 h3 h4
    simp [downloadFile, h1, h2, h3, h4]
  · intro resp name h1 h2 h3 h4
    simp [downloadFile, h1, h2, h3, h4]
  · intro p w1 h
    obtain ⟨-, h3, -, ⟨resp, h2, hg⟩, -⟩ := downloadFile_ok env _ _ _ _ h
    exact ⟨resp, h2, h3, hg⟩

/-- C8, amended, at the 404 response. -/
theorem downloadFile_outcome_witness :
    (downloadFile envNotFound envNotFound.specURL envNotFound.start).1 =
      ("/tmp/spec-1.yaml".toList, none) ∧
    (downloadFile envNotFound envNotFound.specURL envNotFound.start).2.fs.get
      "/tmp/spec-1.yaml".toList = some (.file "404 page not found\n".toList) :=
  (downloadFile_outcome envNotFound envNotFound.specURL envNotFound.start).2.2.2.2.1
    { status := 404, body := "404 page not found\n".toList } "/tmp/spec-1.yaml".toList
    rfl rfl rfl rfl

theorem all_wellTyped_logMessages (ls : List Bytes) : (logMessages ls).all wellTyped = true := by
  simp [logMessages, wellTyped]

theorem all_wellTyped_image (cs : List Bytes) :
    (cs.map (fun c => (MsgType.binary, Site.imageOutput, c))).all wellTyped = true := by
  simp [wellTyped]

theorem all_wellTyped_terminal (cs : List Bytes) :
    (cs.map (fun c => (MsgType.binary, Site.terminalOutput, c))).all wellTyped = true := by
  simp [wellTyped]

/-- Every message of every session follows the typing rule. -/
theorem handleWS_all_wellTyped (env : Env) :
    (sends (handleWS env).trace).all wellTyped = true := by
  rcases handleWS_cases env with ⟨-, hw⟩ | ⟨-, -, hw⟩ | ⟨-, -, ⟨p, e, w1, hd, hw⟩ |
    ⟨p, w1, hd, ⟨w2, hr, hw⟩ | ⟨d, e, w2, hr, hw⟩ |
      ⟨d, w2, hr, ⟨e, hi, hw⟩ | ⟨e, hi, hp, hw⟩ | ⟨hi, hp, hw⟩⟩⟩⟩
  · simp [hw, Outcome.trace, sends]
  · simp [hw, Outcome.trace, sends, Env.start, wellTyped]
  · obtain ⟨hs, -⟩ := downloadFile_quiet env _ _ hd
    simp [hw, Outcome.trace, sends, hs, wellTyped]
  · obtain ⟨hs, -⟩ := downloadFile_quiet env _ _ hd
    obtain ⟨-, es, ht, hes, -⟩ := Run_pipe_blocked env _ _ _ hr
    simp [hw, Outcome.trace, ht, hs, hes, all_wellTyped_logMessages]
  all_goals
    obtain ⟨hs, -⟩ := downloadFile_quiet env _ _ hd
    obtain ⟨es, ht, hes, -⟩ := Run_pipe_returned env _ _ _ _ _ (downloadFile_written env _ _ hd) hr
    rcases hes with hes | hes <;>
      simp [hw, finish, Outcome.trace, sends, ht, hs, hes, all_wellTyped_logMessages,
        all_wellTyped_image, all_wellTyped_terminal, dockerBuild, dockerRun, wellTyped]

/-- C5, as stated, fails: in a session whose stages all succeed, the output of
`docker build` goes out as a binary message, during the image build and before the
interactive forwarding starts. -/
theorem handleWS_image_output_binary :
    Event.send .binary .imageOutput "Step 1/1".toList ∈
      (handleWS sampleEnv).trace.takeWhile (fun e => e != Event.forward) ∧
    Site.imageOutput.stage = Stage.buildingImage := by
  decide

/-- C5, amended: in every session a message is binary exactly when it is written
by `wsWriter`, that is, when it carries `docker build` output or terminal bytes;
so status, diagnostic and log-line messages are text, every message of the
download, script-build and attach stages is text, and binary messages occur in the
image-build and interactive stages only. -/
theorem handleWS_message_types (env : Env) (t : MsgType) (s : Site) (p : Bytes)
    (hm : (t, s, p) ∈ sends (handleWS env).trace) :
    (t = .binary ↔ (s = .imageOutput ∨ s = .terminalOutput)) ∧
    (s.isDiagnostic = true ∨ s = .logLine → t = .text) ∧
    (s.stage = .downloading ∨ s.stage = .buildingScript ∨ s.stage = .attaching → t = .text) ∧
    (t = .binary → s.stage = .buildingImage ∨ s.stage = .interactive) := by
  have hall := handleWS_all_wellTyped env
  rw [List.all_eq_true] at hall
  have hw := hall _ hm
  simp only [wellTyped, decide_eq_true_eq] at hw
  cases t <;> cases s <;> simp_all [Site.stage]

/-- C5, amended, at the sample session: the output of `docker build` is binary. -/
theorem handleWS_message_types_witness :
    (MsgType.binary, Site.imageOutput, "Step 1/1".toList) ∈ sends (handleWS sampleEnv).trace ∧
    ((MsgType.binary = .binary ↔ (Site.imageOutput = .imageOutput ∨
        Site.imageOutput = .terminalOutput)) ∧
      (Site.imageOutput.isDiagnostic = true ∨ Site.imageOutput = .logLine →
        MsgType.binary = .text) ∧
      (Site.imageOutput.stage = .downloading ∨ Site.imageOutput.stage = .buildingScript ∨
        Site.imageOutput.stage = .attaching → MsgType.binary = .text) ∧
      (MsgType.binary = .binary →
        Site.imageOutput.stage = .buildingImage ∨ Site.imageOutput.stage = .interactive)) :=
  ⟨by decide,
    handleWS_message_types sampleEnv .binary .imageOutput "Step 1/1".toList (by decide)⟩

theorem mem_execs (a : List Bytes) (tr : List Event) (h : Event.exec a ∈ tr) : a ∈ execs tr := by
  induction tr with
  | nil => simp at h
  | cons e es ih =>
    rcases List.mem_cons.mp h with h' | h'
    · subst h'
      simp [execs]
    · cases e <;> simp [execs, ih h']

/-- A successful `Run` returns `filepath.Dir` of the spec path; the `docker`
commands a session launches are the build on `filepath.Dir` of the downloaded
spec file and the interactive run. -/
theorem handleWS_docker_commands (env : Env) :
    (∀ u y sink w d w1, Run env u y sink w = .returned d none w1 → d = env.filepathDir y) ∧
    (∀ argv, argv ∈ execs (handleWS env).trace → argv.head? = some "docker".toList →
      ∃ p, env.createTemp = .ok p ∧ Event.createTemp p ∈ (handleWS env).trace ∧
        (argv = ["docker".toList, "build".toList, "-t".toList, "built-image".toList,
            env.filepathDir p] ∨
         argv = ["docker".toList, "run".toList, "-it".toList, "--rm".toList,
            "built-image".toList, "/bin/bash".toList])) := by
  have hrun : ∀ u y sink w d w1, Run env u y sink w = .returned d none w1 →
      d = env.filepathDir y := by
    intro u y sink w d w1 h
    rcases Run_returned env _ _ _ _ _ _ _ h with ⟨-, -, ⟨e, he⟩, -⟩ |
      ⟨d', -, -, ⟨-, ⟨e, he⟩, -, -⟩ | ⟨-, -, hd, -, -⟩⟩
    · cases he
    · cases he
    · exact hd rfl
  refine ⟨hrun, ?_⟩
  intro argv ha hh
  rcases handleWS_cases env with ⟨-, hw⟩ | ⟨-, -, hw⟩ | ⟨-, -, ⟨p, e, w1, hd, hw⟩ |
    ⟨p, w1, hd, ⟨w2, hr, hw⟩ | ⟨d, e, w2, hr, hw⟩ |
      ⟨d, w2, hr, ⟨e, hi, hw⟩ | ⟨e, hi, hp, hw⟩ | ⟨hi, hp, hw⟩⟩⟩⟩
  · simp [hw, Outcome.trace, execs] at ha
  · simp [hw, Outcome.trace, execs, Env.start] at ha
  · obtain ⟨-, hex, -⟩ := downloadFile_quiet env _ _ hd
    simp [hw, Outcome.trace, execs, hex] at ha
  · obtain ⟨-, hex, -⟩ := downloadFile_quiet env _ _ hd
    obtain ⟨-, es, ht, -, ⟨sp, hes⟩, -⟩ := Run_pipe_blocked env _ _ _ hr
    simp [hw, Outcome.trace, execs, hex, ht, hes] at ha
    subst ha
    simp at hh
  · obtain ⟨-, hex, -⟩ := downloadFile_quiet env _ _ hd
    obtain ⟨es, ht, -, hes, -⟩ := Run_pipe_returned env _ _ _ _ _ (downloadFile_written env _ _ hd) hr
    rcases hes with hes | ⟨sp, hes⟩
    · simp [hw, finish, Outcome.trace, execs, hex, ht, hes] at ha
    · simp [hw, finish, Outcome.trace, execs, hex, ht, hes] at ha
      subst ha
      simp at hh
  all_goals
    obtain ⟨-, hex, -⟩ := downloadFile_quiet env _ _ hd
    obtain ⟨-, hct, -, -, htd⟩ := downloadFile_ok env _ _ _ _ hd
    have hdir := hrun _ _ _ _ _ _ hr
    obtain ⟨es, ht, -, hes, -⟩ := Run_pipe_returned env _ _ _ _ _ (downloadFile_written env _ _ hd) hr
    refine ⟨p, hct, by simp [hw, finish, Outcome.trace, ht, htd], ?_⟩
    subst hdir
    rcases hes with hes | ⟨sp, hes⟩
    · simp [hw, finish, Outcome.trace, execs, hex, ht, hes, dockerBuild, dockerRun] at ha
      simp [ha]
    · have hpy : argv ≠ ["python".toList, sp, p] := by
        intro hpy
        subst hpy
        simp at hh
      simp [hw, finish, Outcome.trace, execs, hex, ht, hes, dockerBuild, dockerRun] at ha
      rcases ha with ha | ha
      · exact absurd ha hpy
      · simp [ha]

/-- C10: a successful `Run` returns `filepath.Dir` of the spec path it was given,
whatever the build tool printed or wrote; and the context directory of every
`docker build` the handler launches is `filepath.Dir` of the temporary file that
`downloadFile` created for the spec. -/
theorem Run_returns_spec_dir (env : Env) :
    (∀ u y sink w d w1, Run env u y sink w = .returned d none w1 → d = env.filepathDir y) ∧
    (∀ ctx, dockerBuild ctx ∈ (handleWS env).trace →
      ∃ p, env.createTemp = .ok p ∧ Event.createTemp p ∈ (handleWS env).trace ∧
        ctx = env.filepathDir p) := by
  refine ⟨(handleWS_docker_commands env).1, ?_⟩
  intro ctx hctx
  obtain ⟨p, hct, hmem, h | h⟩ :=
    (handleWS_docker_commands env).2 _ (mem_execs _ _ hctx) (by simp)
  · exact ⟨p, hct, hmem, by simpa using h⟩
  · simp at h

/-- C10 at the sample session: the build context is the directory of the spec file. -/
theorem Run_returns_spec_dir_witness :
    dockerBuild "/tmp".toList ∈ (handleWS sampleEnv).trace ∧
    ∃ p, sampleEnv.createTemp = .ok p ∧ Event.createTemp p ∈ (handleWS sampleEnv).trace ∧
      "/tmp".toList = sampleEnv.filepathDir p :=
  ⟨by decide, (Run_returns_spec_dir sampleEnv).2 _ (by decide)⟩

/-! ## The line scanner -/

theorem splitAtNewlines_covers (data cur : Bytes) (h : data ≠ [] ∨ cur ≠ []) :
    ∃ l ∈ splitAtNewlines data cur, cur.length ≤ l.length := by
  induction data generalizing cur with
  | nil =>
    have hc : cur ≠ [] := by simpa using h
    exact ⟨cur, by simp [splitAtNewlines, hc], le_refl _⟩
  | cons b bs ih =>
    by_cases hb : b = '\n'
    · exact ⟨cur, by simp [splitAtNewlines, hb], le_refl _⟩
    · obtain ⟨l, hl, hlen⟩ := ih (cur ++ [b]) (Or.inr (by simp))
      refine ⟨l, by simpa [splitAtNewlines, hb] using hl, ?_⟩
      simp at hlen
      omega

/-- When every line is shorter than the limit, the scanner delivers every line and
reads the stream to its end. -/
theorem scanLoop_short (limit : Nat) (hpos : 0 < limit) (data cur : Bytes)
    (h : ∀ l ∈ splitAtNewlines data cur, l.length < limit) :
    scanLoop limit data cur =
      { tokens := (splitAtNewlines data cur).map dropCR, tooLong := false, unread := [] } := by
  induction data generalizing cur with
  | nil =>
    by_cases hc : cur = []
    · subst hc
      have : ¬ limit ≤ 0 := by omega
      simp [scanLoop, splitAtNewlines, this]
    · have hlen : cur.length < limit := h cur (by simp [splitAtNewlines, hc])
      have : ¬ limit ≤ cur.length := by omega
      simp [scanLoop, splitAtNewlines, hc, this]
  | cons b bs ih =>
    obtain ⟨l, hl, hlen⟩ := splitAtNewlines_covers (b :: bs) cur (Or.inl (by simp))
    have hlt : ¬ limit ≤ cur.length := by
      have := h l hl
      omega
    by_cases hb : b = '\n'
    · have hrest : ∀ l ∈ splitAtNewlines bs [], l.length < limit := by
        intro l hl
        exact h l (by simp [splitAtNewlines, hb, hl])
      simp [scanLoop, splitAtNewlines, hb, hlt, ih [] hrest]
    · have hrest : ∀ l ∈ splitAtNewlines bs (cur ++ [b]), l.length < limit := by
        intro l hl
        exact h l (by simpa [splitAtNewlines, hb] using hl)
      simp [scanLoop, splitAtNewlines, hb, hlt, ih (cur ++ [b]) hrest]

/-- A line that fits is delivered, and scanning goes on behind its newline. -/
theorem scanLoop_line (limit : Nat) (l rest cur : Bytes) (hn : '\n' ∉ l)
    (hlen : cur.length + l.length < limit) :
    scanLoop limit (l ++ '\n' :: rest) cur =
      { scanLoop limit rest [] with
        tokens := dropCR (cur ++ l) :: (scanLoop limit rest []).tokens } := by
  induction l generalizing cur with
  | nil =>
    have : ¬ limit ≤ cur.length := by simp at hlen; omega
    simp [scanLoop, this]
  | cons b bs ih =>
    have hb : b ≠ '\n' := fun hb => hn (by simp [hb])
    have hbs : '\n' ∉ bs := fun hbs => hn (by simp [hbs])
    have : ¬ limit ≤ cur.length := by simp at hlen; omega
    have hlen' : (cur ++ [b]).length + bs.length < limit := by simp at hlen ⊢; omega
    simp [scanLoop, this, hb, ih (cur ++ [b]) hbs hlen']

/-- A stretch without newline that fills the buffer stops the scanner: no token
for it, and what lies behind it is never read. -/
theorem scanLoop_tooLong (limit : Nat) (l rest cur : Bytes) (hn : '\n' ∉ l)
    (hlen : cur.length + l.length = limit) :
    scanLoop limit (l ++ rest) cur = { tokens := [], tooLong := true, unread := rest } := by
  induction l generalizing cur with
  | nil =>
    have : limit ≤ cur.length := by simp at hlen; omega
    cases rest <;> simp [scanLoop, this]
  | cons b bs ih =>
    have hb : b ≠ '\n' := fun hb => hn (by simp [hb])
    have hbs : '\n' ∉ bs := fun hbs => hn (by simp [hbs])
    have : ¬ limit ≤ cur.length := by simp at hlen; omega
    have hlen' : (cur ++ [b]).length + bs.length = limit := by simp at hlen ⊢; omega
    simp [scanLoop, this, hb, ih (cur ++ [b]) hbs hlen']

theorem newline_not_mem_longLine : '\n' ∉ longLine := by
  intro h
  have hc : '\n' = 'a' := List.eq_of_mem_replicate h
  exact absurd hc (by decide)

theorem length_longLine : longLine.length = maxScanTokenSize :=
  List.length_replicate _ _

/-- The scanner on a stream that is one line of 65536 bytes: nothing is delivered. -/
theorem scanLines_longLine :
    scanLines longLine = { tokens := [], tooLong := true, unread := [] } := by
  have h := scanLoop_tooLong maxScanTokenSize longLine [] [] newline_not_mem_longLine
    (by rw [length_longLine]; exact Nat.zero_add _)
  rw [List.append_nil] at h
  exact h

theorem dropCR_longLine : dropCR longLine = longLine := by
  unfold dropCR
  rw [if_neg]
  intro h
  have hm : '\r' ∈ longLine := List.mem_of_getLast?_eq_some h
  have hc : '\r' = 'a' := List.eq_of_mem_replicate hm
  exact absurd hc (by decide)

theorem longLine_ne_nil : longLine ≠ [] := by
  intro h
  have hl := length_longLine
  rw [h] at hl
  exact absurd hl (by decide)

theorem splitAtNewlines_line (l rest cur : Bytes) (hn : '\n' ∉ l) :
    splitAtNewlines (l ++ '\n' :: rest) cur = (cur ++ l) :: splitAtNewlines rest [] := by
  induction l generalizing cur with
  | nil => simp [splitAtNewlines]
  | cons b bs ih =>
    have hb : b ≠ '\n' := fun hb => hn (by simp [hb])
    have hbs : '\n' ∉ bs := fun hbs => hn (by simp [hbs])
    simp [splitAtNewlines, hb, ih (cur ++ [b]) hbs]

theorem splitAtNewlines_last (l cur : Bytes) (hn : '\n' ∉ l) (hne : cur ++ l ≠ []) :
    splitAtNewlines l cur = [cur ++ l] := by
  induction l generalizing cur with
  | nil =>
    have hc : cur ≠ [] := by simpa using hne
    simp [splitAtNewlines, hc]
  | cons b bs ih =>
    have hb : b ≠ '\n' := fun hb => hn (by simp [hb])
    have hbs : '\n' ∉ bs := fun hbs => hn (by simp [hbs])
    simp [splitAtNewlines, hb, ih (cur ++ [b]) hbs (by simp)]

theorem outputLines_longLine : outputLines longLine = [longLine] := by
  unfold outputLines
  rw [splitAtNewlines_last longLine [] newline_not_mem_longLine
    (by rw [List.nil_append]; exact longLine_ne_nil)]
  simp [dropCR_longLine]

theorem scanLines_first_longLine :
    scanLines ("first\n".toList ++ longLine) =
      { tokens := ["first".toList], tooLong := true, unread := [] } := by
  have h := scanLoop_line maxScanTokenSize "first".toList longLine [] (by decide) (by decide)
  have h2 : scanLoop maxScanTokenSize longLine [] = scanLines longLine := rfl
  rw [h2, scanLines_longLine] at h
  exact h

theorem outputLines_first_longLine :
    outputLines ("first\n".toList ++ longLine) = ["first".toList, longLine] := by
  have h := splitAtNewlines_line "first".toList longLine [] (by decide)
  have h2 : splitAtNewlines longLine [] = [longLine] :=
    splitAtNewlines_last longLine [] newline_not_mem_longLine
      (by rw [List.nil_append]; exact longLine_ne_nil)
  rw [h2] at h
  have h3 : outputLines ("first\n".toList ++ longLine) =
      List.map dropCR (splitAtNewlines ("first".toList ++ '\n' :: longLine) []) := rfl
  rw [h3, h]
  simp [dropCR_longLine]
  decide

theorem scanLines_stuck :
    scanLines (longLine ++ "x".toList) =
      { tokens := [], tooLong := true, unread := "x".toList } :=
  scanLoop_tooLong maxScanTokenSize longLine "x".toList [] newline_not_mem_longLine
    (by rw [length_longLine]; exact Nat.zero_add _)

/-! ## Sessions in which the build tool is launched -/

/-- A session that launches the build tool. Its trace is the launch prefix, then
the sends of the reader while the pipe is open, then: nothing more, the handler
being stuck, when the scanner left bytes unread; otherwise the removal of the
staging directory, the sends of the reader at the end of the stream, and then
either the `builder error: ` diagnostic and the deferred calls, when the tool
failed, or the launch of `docker build` on `filepath.Dir` of the spec path,
after which no log line is sent. -/
theorem handleWS_script_stage (env : Env) (p d : Path) (w1 : World) (r : Response)
    (hup : env.upgradeFails = false) (hs : env.specURL ≠ [])
    (hd : downloadFile env env.specURL env.start = ((p, none), w1))
    (hmk : env.mkdirTemp = .ok d) (hsg : env.scriptGet = .ok r)
    (hcs : env.createScriptErr = none) (hcp : env.copyScriptErr = none) :
    ((scanLines env.toolOutput).unread ≠ [] ∧
      ∃ w, handleWS env = .blocked w ∧
        w.trace = launchPrefix env p d ++ (pipeSink env.toolOutput).1) ∨
    ((scanLines env.toolOutput).unread = [] ∧
      ∃ w post, handleWS env = .closed w ∧
        w.trace = launchPrefix env p d ++ (pipeSink env.toolOutput).1 ++ [.removeAll d] ++
          pipeClose env.toolOutput ++ post ∧
        ((∃ e, env.toolErr = some e ∧
            post = [.send .text .builderError (diagnostic "builder error: " e),
              .remove p, .close]) ∨
         (env.toolErr = none ∧
            ∃ rest, post = dockerBuild (env.filepathDir p) :: rest ∧
              ∀ t b, Event.send t .logLine b ∉ rest))) := by
  obtain ⟨-, -, -, -, htd⟩ := downloadFile_ok env _ _ _ _ hd
  have htd' : w1.trace = [.httpGet env.specURL, .createTemp p] := by simpa [Env.start] using htd
  rcases handleWS_cases env with ⟨h0, -⟩ | ⟨-, h1, -⟩ | ⟨-, -, ⟨p', e', w1', hd', hw⟩ |
    ⟨p', w1', hd', ⟨w2, hr, hw⟩ | ⟨d0, e, w2, hr, hw⟩ |
      ⟨d0, w2, hr, ⟨e, hi, hw⟩ | ⟨e, hi, hp, hw⟩ | ⟨hi, hp, hw⟩⟩⟩⟩
  · simp [hup] at h0
  · exact absurd h1 hs
  · rw [hd] at hd'
    cases hd'
  · rw [hd] at hd'
    cases hd'
    obtain ⟨hb, d', hmk', ht⟩ := Run_blocked env _ _ _ _ _ hr
    rw [hmk] at hmk'
    cases hmk'
    refine Or.inl ⟨by simpa [pipeSink] using hb, w2, hw, ?_⟩
    simp [ht, htd', launchPrefix]
  all_goals
    rw [hd] at hd'
    cases hd'
    rcases Run_returned env _ _ _ _ _ _ _ hr with ⟨-, -, -, ⟨e0, hmk'⟩⟩ |
      ⟨d', hmk', -, ⟨-, -, ⟨e0, hc⟩ | ⟨e0, hc⟩ | ⟨e0, hc⟩, -⟩ | ⟨hdr, hte, hdir, -, ht⟩⟩
    · rw [hmk] at hmk'
      cases hmk'
    · rw [hsg] at hc
      cases hc
    · rw [hcs] at hc
      cases hc
    · rw [hcp] at hc
      cases hc
    rw [hmk] at hmk'
    cases hmk'
    have hwr : written w2.trace = env.toolOutput := by
      simp [ht, htd', runPrefix, written]
    have hac : (afterClose w2).trace = launchPrefix env p d ++ (pipeSink env.toolOutput).1 ++
        [.removeAll d] ++ pipeClose env.toolOutput := by
      rw [afterClose_trace, hwr, ht, htd']
      simp [launchPrefix]
    refine Or.inr ⟨by simpa [pipeSink] using hdr, ?_⟩
  · refine ⟨_, _, by rw [hw, finish], ?_, Or.inl ⟨e, hte.symm, rfl⟩⟩
    simp [hac]
  · have hdir' := hdir rfl
    subst hdir'
    refine ⟨_, dockerBuild (env.filepathDir p) ::
      (env.imageOutput.map (wsWriterWrite .imageOutput) ++
        [.send .text .imageError (diagnostic "docker build error: " e), .remove p, .close]),
      by rw [hw, finish], ?_, Or.inr ⟨hte.symm, _, rfl, ?_⟩⟩
    · simp [hac]
    · simp [wsWriterWrite, dockerRun]
  · have hdir' := hdir rfl
    subst hdir'
    refine ⟨_, dockerBuild (env.filepathDir p) ::
      (env.imageOutput.map (wsWriterWrite .imageOutput) ++
        [dockerRun, .send .text .terminalFailed (diagnostic "terminal start failed: " e),
          .remove p, .close]),
      by rw [hw, finish], ?_, Or.inr ⟨hte.symm, _, rfl, ?_⟩⟩
    · simp [hac]
    · simp [wsWriterWrite, dockerRun]
  · have hdir' := hdir rfl
    subst hdir'
    refine ⟨_, dockerBuild (env.filepathDir p) ::
      (env.imageOutput.map (wsWriterWrite .imageOutput) ++
        ([dockerRun, .forward] ++ env.terminalOutput.map (wsWriterWrite .terminalOutput) ++
          [.remove p, .close])),
      by rw [hw, finish], ?_, Or.inr ⟨hte.symm, _, rfl, ?_⟩⟩
    · simp [hac]
    · simp [wsWriterWrite, dockerRun]

@[simp]
theorem sends_launchPrefix (env : Env) (p d : Path) : sends (launchPrefix env p d) = [] := by
  simp [launchPrefix, runPrefix, sends]

@[simp]
theorem execs_launchPrefix (env : Env) (p d : Path) :
    execs (launchPrefix env p d) =
      [["python".toList, env.filepathJoin d "builder.py".toList, p]] := by
  simp [launchPrefix, runPrefix, execs]

theorem filter_logLine_logMessages (ls : List Bytes) :
    (logMessages ls).filter (fun m => m.2.1 = Site.logLine) = logMessages ls := by
  induction ls with
  | nil => rfl
  | cons c cs ih =>
    have ih' : List.filter (fun m => decide (m.2.1 = Site.logLine)) (logMessages cs) =
        logMessages cs := ih
    simp only [logMessages, List.map_cons] at ih' ⊢
    simp [ih']

theorem filter_logLine_none (es : List Event) (h : ∀ t b, Event.send t .logLine b ∉ es) :
    (sends es).filter (fun m => m.2.1 = Site.logLine) = [] := by
  induction es with
  | nil => rfl
  | cons e es ih =>
    have hes : ∀ t b, Event.send t .logLine b ∉ es := fun t b hm => h t b (by simp [hm])
    cases e with
    | send t s b =>
      have hs : s ≠ Site.logLine := by
        intro hs
        subst hs
        exact h t b (by simp)
      simp [sends, hs, ih hes]
    | _ => simpa [sends] using ih hes

/-- The log-line messages of a launched session that closes are the scanned lines. -/
theorem sends_script_stage (env : Env) (p d : Path) :
    sends (launchPrefix env p d ++ (pipeSink env.toolOutput).1 ++ [.removeAll d] ++
      pipeClose env.toolOutput) = logMessages (scanLines env.toolOutput).tokens := by
  have hsp := sends_pipe env.toolOutput
  simp only [sends_append, sends_launchPrefix, List.nil_append]
  have hra : sends [Event.removeAll d] = [] := rfl
  rw [hra, List.append_nil]
  exact hsp

/-- A session in which the tool is launched and fails, the scanner having read all
of its output: the messages are the scanned lines, then the diagnostic. -/
theorem tool_failure_sends (env : Env) (p d : Path) (w1 : World) (r : Response) (e : Err)
    (hup : env.upgradeFails = false) (hs : env.specURL ≠ [])
    (hd : downloadFile env env.specURL env.start = ((p, none), w1))
    (hmk : env.mkdirTemp = .ok d) (hsg : env.scriptGet = .ok r)
    (hcs : env.createScriptErr = none) (hcp : env.copyScriptErr = none)
    (hte : env.toolErr = some e) (hun : (scanLines env.toolOutput).unread = []) :
    ∃ w, handleWS env = .closed w ∧
      sends w.trace = logMessages (scanLines env.toolOutput).tokens ++
        [(MsgType.text, Site.builderError, "builder error: ".toList ++ e ++ "\n".toList)] ∧
      execs w.trace = [["python".toList, env.filepathJoin d "builder.py".toList, p]] := by
  rcases handleWS_script_stage env p d w1 r hup hs hd hmk hsg hcs hcp with
    ⟨hun', -⟩ | ⟨-, w, post, hw, ht, ⟨e', hte', hpost⟩ | ⟨hte', -⟩⟩
  · exact absurd hun hun'
  · rw [hte] at hte'
    cases hte'
    refine ⟨w, hw, ?_, ?_⟩
    · rw [ht, sends_append, sends_script_stage, hpost]
      simp [sends, diagnostic]
    · simp [ht, hpost, execs]
  · rw [hte] at hte'
    cases hte'

/-- A session in which the tool is launched and succeeds, the scanner having read
all of its output: the log-line messages are the scanned lines, and the image
build is started on `filepath.Dir` of the spec path. -/
theorem tool_success_sends (env : Env) (p d : Path) (w1 : World) (r : Response)
    (hup : env.upgradeFails = false) (hs : env.specURL ≠ [])
    (hd : downloadFile env env.specURL env.start = ((p, none), w1))
    (hmk : env.mkdirTemp = .ok d) (hsg : env.scriptGet = .ok r)
    (hcs : env.createScriptErr = none) (hcp : env.copyScriptErr = none)
    (hte : env.toolErr = none) (hun : (scanLines env.toolOutput).unread = []) :
    ∃ w, handleWS env = .closed w ∧
      (sends w.trace).filter (fun m => m.2.1 = Site.logLine) =
        logMessages (scanLines env.toolOutput).tokens ∧
      dockerBuild (env.filepathDir p) ∈ w.trace := by
  rcases handleWS_script_stage env p d w1 r hup hs hd hmk hsg hcs hcp with
    ⟨hun', -⟩ | ⟨-, w, post, hw, ht, ⟨e', hte', -⟩ | ⟨-, rest, hpost, hrest⟩⟩
  · exact absurd hun hun'
  · rw [hte] at hte'
    cases hte'
  · refine ⟨w, hw, ?_, ?_⟩
    · have hpost' : ∀ t b, Event.send t .logLine b ∉ post := by
        intro t b
        simp [hpost, dockerBuild, hrest t b]
      rw [ht, sends_append, sends_script_stage, List.filter_append,
        filter_logLine_none post hpost', filter_logLine_logMessages, List.append_nil]
    · simp [ht, hpost]

/-- The failing build, for tool output whose lines all fit the buffer of the
scanner: when the tool is launched and fails, the messages of the session are
the lines of its output, in order, each as a text message, and then the
`builder error: ` diagnostic as the last message; the build tool is the only
command launched. -/
theorem tool_failure_messages (env : Env) (p d : Path) (w1 : World) (r : Response) (e : Err)
    (hup : env.upgradeFails = false) (hs : env.specURL ≠ [])
    (hd : downloadFile env env.specURL env.start = ((p, none), w1))
    (hmk : env.mkdirTemp = .ok d) (hsg : env.scriptGet = .ok r)
    (hcs : env.createScriptErr = none) (hcp : env.copyScriptErr = none)
    (hte : env.toolErr = some e)
    (hshort : ∀ l ∈ splitAtNewlines env.toolOutput [], l.length < maxScanTokenSize) :
    ∃ w, handleWS env = .closed w ∧
      sends w.trace = logMessages (outputLines env.toolOutput) ++
        [(MsgType.text, Site.builderError, "builder error: ".toList ++ e ++ "\n".toList)] ∧
      execs w.trace = [["python".toList, env.filepathJoin d "builder.py".toList, p]] := by
  have hscan : scanLines env.toolOutput =
      { tokens := outputLines env.toolOutput, tooLong := false, unread := [] } :=
    scanLoop_short maxScanTokenSize (by decide) env.toolOutput [] hshort
  have h := tool_failure_sends env p d w1 r e hup hs hd hmk hsg hcs hcp hte (by rw [hscan])
  rw [hscan] at h
  exact h

/-- The forwarding of log lines, for tool output whose lines all fit the buffer
of the scanner: when the tool is launched, the handler returns, and its trace
falls into two parts. The messages of the first part are the lines of the
output, one text message each, in order. The second part begins with the
`builder error: ` diagnostic or with the launch of `docker build`, and holds no
log line. -/
theorem log_lines_forwarded (env : Env) (p d : Path) (w1 : World) (r : Response)
    (hup : env.upgradeFails = false) (hs : env.specURL ≠ [])
    (hd : downloadFile env env.specURL env.start = ((p, none), w1))
    (hmk : env.mkdirTemp = .ok d) (hsg : env.scriptGet = .ok r)
    (hcs : env.createScriptErr = none) (hcp : env.copyScriptErr = none)
    (hshort : ∀ l ∈ splitAtNewlines env.toolOutput [], l.length < maxScanTokenSize) :
    ∃ w pre post, handleWS env = .closed w ∧ w.trace = pre ++ post ∧
      sends pre = logMessages (outputLines env.toolOutput) ∧
      (∀ t b, Event.send t .logLine b ∉ post) ∧
      ((∃ e, env.toolErr = some e ∧ post.head? =
          some (.send .text .builderError (diagnostic "builder error: " e))) ∨
       (env.toolErr = none ∧ post.head? = some (dockerBuild (env.filepathDir p)))) := by
  have hscan : scanLines env.toolOutput =
      { tokens := outputLines env.toolOutput, tooLong := false, unread := [] } :=
    scanLoop_short maxScanTokenSize (by decide) env.toolOutput [] hshort
  rcases handleWS_script_stage env p d w1 r hup hs hd hmk hsg hcs hcp with
    ⟨hun, -⟩ | ⟨-, w, post, hw, ht, hpost⟩
  · simp [hscan] at hun
  · refine ⟨w, _, post, hw, ht, ?_, ?_, ?_⟩
    · rw [sends_script_stage, hscan]
    · rcases hpost with ⟨e, -, hpost⟩ | ⟨-, rest, hpost, hrest⟩
      · simp [hpost]
      · intro t b
        simp [hpost, dockerBuild, hrest t b]
    · rcases hpost with ⟨e, hte, hpost⟩ | ⟨hte, rest, hpost, -⟩
      · exact Or.inl ⟨e, hte, by simp [hpost]⟩
      · exact Or.inr ⟨hte, by simp [hpost]⟩

/-- C3 at a failing input: the tool prints one line of 65536 bytes and exits with
an error; the handler returns, and the only message of the session is the
diagnostic: the line never reaches the client. -/
theorem handleWS_long_line_lost :
    envLongLine.toolOutput = longLine ∧ outputLines longLine = [longLine] ∧
    envLongLine.toolErr = some "exit status 1".toList ∧
    ∃ w, handleWS envLongLine = .closed w ∧
      sends w.trace =
        [(MsgType.text, Site.builderError, "builder error: exit status 1\n".toList)] := by
  refine ⟨rfl, outputLines_longLine, rfl, ?_⟩
  obtain ⟨w1, hd⟩ : ∃ w1, downloadFile envLongLine envLongLine.specURL envLongLine.start =
      (("/tmp/spec-1.yaml".toList, none), w1) := ⟨_, rfl⟩
  have hscan : scanLines envLongLine.toolOutput =
      { tokens := [], tooLong := true, unread := [] } := scanLines_longLine
  obtain ⟨w, hw, hsends, -⟩ := tool_failure_sends envLongLine _ "/tmp/builder1".toList w1
    { status := 200, body := "print(1)".toList } "exit status 1".toList
    rfl (by decide) hd rfl rfl rfl rfl rfl (by rw [hscan])
  rw [hscan] at hsends
  exact ⟨w, hw, hsends⟩

/-- C7 at a failing input: the tool prints the line `first` and then a last line
of 65536 bytes, and succeeds. The output has two lines; the handler returns having
sent one log line, `first`, and having started the image build. -/
theorem handleWS_long_line_dropped :
    outputLines envLongSecond.toolOutput = ["first".toList, longLine] ∧
    ∃ w, handleWS envLongSecond = .closed w ∧
      (sends w.trace).filter (fun m => m.2.1 = Site.logLine) =
        [(MsgType.text, Site.logLine, "first\n".toList)] ∧
      dockerBuild "/tmp".toList ∈ w.trace := by
  refine ⟨outputLines_first_longLine, ?_⟩
  obtain ⟨w1, hd⟩ : ∃ w1, downloadFile envLongSecond envLongSecond.specURL envLongSecond.start =
      (("/tmp/spec-1.yaml".toList, none), w1) := ⟨_, rfl⟩
  have hscan : scanLines envLongSecond.toolOutput =
      { tokens := ["first".toList], tooLong := true, unread := [] } := scanLines_first_longLine
  obtain ⟨w, hw, hsends, hbuild⟩ := tool_success_sends envLongSecond _ "/tmp/builder1".toList w1
    { status := 200, body := "print(1)".toList }
    rfl (by decide) hd rfl rfl rfl rfl rfl (by rw [hscan])
  rw [hscan] at hsends
  exact ⟨w, hw, hsends, hbuild⟩

/-- A scan that delivers no token delivered none while the stream was open. -/
theorem scanOpen_eq_nil (out : Bytes) (h : (scanLines out).tokens = []) :
    scanOpen maxScanTokenSize out [] = [] := by
  obtain ⟨r, hr⟩ := scanOpen_prefix maxScanTokenSize out []
  have hr' : (scanLines out).tokens = scanOpen maxScanTokenSize out [] ++ r := hr
  rw [h] at hr'
  exact (List.append_eq_nil.mp hr'.symm).1

/-- A launched session whose tool output is a line of 65536 bytes and one more
byte: the handler never returns, and has sent nothing. -/
theorem stuck_session (env : Env) (p d : Path) (w1 : World) (r : Response)
    (hup : env.upgradeFails = false) (hs : env.specURL ≠ [])
    (hd : downloadFile env env.specURL env.start = ((p, none), w1))
    (hmk : env.mkdirTemp = .ok d) (hsg : env.scriptGet = .ok r)
    (hcs : env.createScriptErr = none) (hcp : env.copyScriptErr = none)
    (hout : env.toolOutput = longLine ++ "x".toList) :
    ∃ w, handleWS env = .blocked w ∧ sends w.trace = [] ∧ Event.forward ∉ w.trace ∧
      Event.close ∉ w.trace := by
  have hscan : scanLines env.toolOutput =
      { tokens := [], tooLong := true, unread := "x".toList } := by
    rw [hout]
    exact scanLines_stuck
  rcases handleWS_script_stage env p d w1 r hup hs hd hmk hsg hcs hcp with
    ⟨-, w, hw, ht⟩ | ⟨hun, -⟩
  · refine ⟨w, hw, ?_, ?_, ?_⟩
    · rw [ht, sends_append, sends_launchPrefix, sends_pipeSink,
        scanOpen_eq_nil env.toolOutput (by rw [hscan])]
      rfl
    · rw [ht]
      simp [launchPrefix, runPrefix]
    · rw [ht]
      simp [launchPrefix, runPrefix]
  · rw [hscan] at hun
    exact absurd hun (by decide)

/-- When bytes follow a line of 65536 bytes the handler never returns: the reader
has stopped, `Run` waits on the pipe, and nothing has been sent. -/
theorem handleWS_stuck :
    envStuck.toolOutput = longLine ++ "x".toList ∧
    ∃ w, handleWS envStuck = .blocked w ∧ sends w.trace = [] := by
  refine ⟨rfl, ?_⟩
  obtain ⟨w1, hd⟩ : ∃ w1, downloadFile envStuck envStuck.specURL envStuck.start =
      (("/tmp/spec-1.yaml".toList, none), w1) := ⟨_, rfl⟩
  obtain ⟨w, hw, hsends, -⟩ := stuck_session envStuck _ "/tmp/builder1".toList w1
    { status := 200, body := "print(1)".toList } rfl (by decide) hd rfl rfl rfl rfl rfl
  exact ⟨w, hw, hsends⟩

/-- C1 at a failing input: the download succeeds, the build tool prints a line of
65536 bytes and one more byte, and exits with an error. The reader goroutine has
stopped at the long line, `Run` waits on the pipe for ever, and the handler
neither sends a diagnostic nor starts the interactive forwarding, nor closes the
channel. -/
theorem handleWS_stuck_neither :
    envStuckFail.upgradeFails = false ∧
    (downloadFile envStuckFail envStuckFail.specURL envStuckFail.start).1 =
      ("/tmp/spec-1.yaml".toList, none) ∧
    envStuckFail.toolOutput = longLine ++ "x".toList ∧
    envStuckFail.toolErr = some "exit status 1".toList ∧
    ∃ w, handleWS envStuckFail = .blocked w ∧ diagnostics w.trace = [] ∧
      Event.forward ∉ w.trace ∧ Event.close ∉ w.trace := by
  refine ⟨rfl, by decide, rfl, rfl, ?_⟩
  obtain ⟨w1, hd⟩ : ∃ w1, downloadFile envStuckFail envStuckFail.specURL envStuckFail.start =
      (("/tmp/spec-1.yaml".toList, none), w1) := ⟨_, rfl⟩
  obtain ⟨w, hw, hsends, hf, hc⟩ := stuck_session envStuckFail _ "/tmp/builder1".toList w1
    { status := 200, body := "print(1)".toList } rfl (by decide) hd rfl rfl rfl rfl rfl
  exact ⟨w, hw, by simp [diagnostics, hsends], hf, hc⟩

end Tester
